import Mathlib

/-! # MRPT: graphslam-engine application, `map_as_vector`, `CDirectedTree`, `COpenGLStandardObject`

A shallow embedding of parts of the MRPT sources and the properties proved
about them:

* `apps/graphslam-engine/graphslam-engine_app.cpp` (`main`, the decider and
  optimizer registries, `checkRegistrationDeciderExists`, `checkOptimizerExists`);
* `libs/base/include/mrpt/utils/map_as_vector.h`;
* `libs/graphs/include/mrpt/graphs/CDirectedTree.h`;
* `libs/opengl/include/mrpt/opengl/COpenGLStandardObject.h`.

Conventions.  `size_t` is 64 bits wide and is embedded in `Nat` with an explicit
`% SIZE_WIDTH` wherever the source computes `+1`.  A C++ exception is a value of
an outcome type; undefined behaviour is `none`.
-/

namespace mrpt

/-! ## Case-insensitive comparison -/

/-- ASCII lower-casing of one character, as `tolower` in the "C" locale. -/
def lowerChar (c : Char) : Char :=
  if 65 ≤ c.toNat ∧ c.toNat ≤ 90 then Char.ofNat (c.toNat + 32) else c

/-- Modelled from the spec: `mrpt::system::strCmpI` is declared in
`mrpt/system/string_utils.h`, which is not among the sources; it returns true
when the two strings are equal, comparing case-insensitively. -/
def strCmpI (s1 s2 : String) : Bool :=
  s1.data.map lowerChar == s2.data.map lowerChar

/-! ## graphslam-engine_app.cpp -/

namespace graphslam_engine

/-- Properties struct for the registration decider classes. -/
structure TRegistrationDeciderProps where
  name : String
  description : String
  type : String
  rawlog_format : String
  observations_used : List String

/-- Properties struct for the optimizer classes. -/
structure TOptimizerProps where
  name : String
  description : String

/-- The contents of `deciders_vec` after the registration blocks at the top of
`main`, in `push_back` order. -/
def deciders_vec : List TRegistrationDeciderProps :=
  [ { name := "CFixedIntervalsNRD"
      description := "Register a new node if the distance from the previous node surpasses a predefined distance threshold. Uses odometry information for estimating the robot movement"
      type := "Node"
      rawlog_format := "Both"
      observations_used :=
        ["CActionRobotMovement2D - Format #1", "CObservationOdometry - Format #2"] },
    { name := "CICPCriteriaNRD"
      description := "Register a new node if the distance from the previous node surpasses a predefined distance threshold. Uses 2D/3D RangeScans alignment for estimating the robot movement"
      type := "Node"
      rawlog_format := "#2 - Observation-only"
      observations_used :=
        ["CObservation2DRangeScan - Format #2", "CObservation3DRangeScan - Format #2"] },
    { name := "CICPCriteriaERD"
      description := "Register a new edge by alligning the provided 2D/3D RangeScans of 2 nodes. Uses the goodness of the ICP Alignment as the criterium for adding a new edge"
      type := "Edge"
      rawlog_format := "Both"
      observations_used :=
        ["CObservation2DRangeScan - Format #1, #2", "CObservation3DRangeScan - Format #2"] },
    { name := "CEmptyNRD"
      description := "Empty Decider - does nothing when its class methods are called"
      type := "Node"
      rawlog_format := "Both"
      observations_used := [] },
    { name := "CEmptyERD"
      description := "Empty Decider - does nothing when its class methods are called"
      type := "Edge"
      rawlog_format := "Both"
      observations_used := [] },
    { name := "CLoopCloserERD"
      description := "Partition the map and register *sets* of edges based on the Pairwise consistency matrix of each set."
      type := "Edge"
      rawlog_format := "Both"
      observations_used := ["CObservation2DRangeScan - Format #1, #2"] } ]

/-- The contents of `optimizers_vec` after the registration block of `main`. -/
def optimizers_vec : List TOptimizerProps :=
  [ { name := "CLevMarqGSO"
      description := "Levenberg-Marqurdt non-linear graphSLAM solver" } ]

/-- The `for` loop of `checkRegistrationDeciderExists` over a decider vector:
returns true at the first entry whose type and name both match. -/
def deciderLoop (given_reg reg_type : String) : List TRegistrationDeciderProps → Bool
  | [] => false
  | dec :: rest =>
    if strCmpI dec.type reg_type then
      if strCmpI dec.name given_reg then true
      else deciderLoop given_reg reg_type rest
    else deciderLoop given_reg reg_type rest

/-- The function `checkRegistrationDeciderExists(given_reg, reg_type)`.  The leading
`ASSERTMSG_` throws (here `none`) unless `reg_type` is "node" or "edge". -/
def checkRegistrationDeciderExists (given_reg reg_type : String) : Option Bool :=
  if strCmpI reg_type "node" || strCmpI reg_type "edge" then
    some (deciderLoop given_reg reg_type deciders_vec)
  else none

/-- The `for` loop of `checkOptimizerExists` over an optimizer vector. -/
def optimizerLoop (given_opt : String) : List TOptimizerProps → Bool
  | [] => false
  | opt :: rest =>
    if strCmpI opt.name given_opt then true else optimizerLoop given_opt rest

/-- The function `checkOptimizerExists(given_opt)`. -/
def checkOptimizerExists (given_opt : String) : Bool :=
  optimizerLoop given_opt optimizers_vec

/-- The node registration decider classes `main` can instantiate. -/
inductive NodeRegDecider
  | CFixedIntervalsNRD
  | CEmptyNRD
  | CICPCriteriaNRD
  deriving DecidableEq, Repr

/-- The edge registration decider classes `main` can instantiate. -/
inductive EdgeRegDecider
  | CICPCriteriaERD
  | CLoopCloserERD
  | CEmptyERD
  deriving DecidableEq, Repr

/-- The optimizer classes `main` can instantiate. -/
inductive GraphSlamOptimizer
  | CLevMarqGSO
  deriving DecidableEq, Repr

/-- One instantiation `CGraphSlamEngine<CNetworkOfPoses2DInf, NODE, EDGE, OPT>`
together with its constructor arguments. -/
structure CGraphSlamEngine where
  node_reg : NodeRegDecider
  edge_reg : EdgeRegDecider
  optimizer : GraphSlamOptimizer
  ini_fname : String
  rawlog_fname : String
  ground_truth_fname : String
  enable_visuals : Bool
  deriving DecidableEq, Repr

/-- What the TCLAP objects hold once `cmd.parse(argc, argv)` has run, plus the
two flags `main` computes from `argv[1]`.  A `ValueArg` that is not set is
`none` for the file arguments; the three name arguments carry their default
value when not given. -/
structure CmdLine where
  parse_ok : Bool
  showHelp : Bool
  showVersion : Bool
  list_node_registrars : Bool
  list_edge_registrars : Bool
  list_all_registrars : Bool
  list_optimizers : Bool
  disable_visuals : Bool
  arg_node_reg : String
  arg_edge_reg : String
  arg_optimizer : String
  arg_ini_file : Option String
  arg_rawlog_file : Option String
  arg_ground_truth_file : Option String

/-- The command line with every argument at its declared default. -/
def CmdLine.defaults : CmdLine :=
  { parse_ok := true, showHelp := false, showVersion := false
    list_node_registrars := false, list_edge_registrars := false
    list_all_registrars := false, list_optimizers := false
    disable_visuals := false
    arg_node_reg := "CFixedIntervalsNRD"
    arg_edge_reg := "CICPCriteriaERD"
    arg_optimizer := "CLevMarqGSO"
    arg_ini_file := none, arg_rawlog_file := none, arg_ground_truth_file := none }

/-- How control leaves the `try` block of `main`. -/
inductive TryExit
  | returned (code : Int)
  | threw
  | fellThrough
  deriving DecidableEq, Repr

/-- The observable run of `main`: the engines it constructed (in order) and the
exit code. -/
structure MainRun where
  engines : List CGraphSlamEngine
  ret : Int
  deriving DecidableEq, Repr

/-- The first `if` statement of the dispatch (`node_reg` is CFixedIntervalsNRD):
the engine it declares, if any. -/
def dispatchFixedIntervals (node_reg edge_reg ini rawlog gt : String) (vis : Bool) :
    Option CGraphSlamEngine :=
  if strCmpI node_reg "CFixedIntervalsNRD" then
    if strCmpI edge_reg "CICPCriteriaERD" then
      some ⟨.CFixedIntervalsNRD, .CICPCriteriaERD, .CLevMarqGSO, ini, rawlog, gt, vis⟩
    else if strCmpI edge_reg "CLoopCloserERD" then
      some ⟨.CFixedIntervalsNRD, .CLoopCloserERD, .CLevMarqGSO, ini, rawlog, gt, vis⟩
    else if strCmpI edge_reg "CEmptyERD" then
      some ⟨.CFixedIntervalsNRD, .CEmptyERD, .CLevMarqGSO, ini, rawlog, gt, vis⟩
    else none
  else none

/-- The second `if ... else if` statement of the dispatch (`node_reg` is
CEmptyNRD, else CICPCriteriaNRD): the engine it declares, if any. -/
def dispatchEmptyOrICP (node_reg edge_reg ini rawlog gt : String) (vis : Bool) :
    Option CGraphSlamEngine :=
  if strCmpI node_reg "CEmptyNRD" then
    if strCmpI edge_reg "CICPCriteriaERD" then
      some ⟨.CEmptyNRD, .CICPCriteriaERD, .CLevMarqGSO, ini, rawlog, gt, vis⟩
    else if strCmpI edge_reg "CLoopCloserERD" then
      some ⟨.CFixedIntervalsNRD, .CLoopCloserERD, .CLevMarqGSO, ini, rawlog, gt, vis⟩
    else if strCmpI edge_reg "CEmptyERD" then
      some ⟨.CEmptyNRD, .CEmptyERD, .CLevMarqGSO, ini, rawlog, gt, vis⟩
    else none
  else if strCmpI node_reg "CICPCriteriaNRD" then
    if strCmpI edge_reg "CICPCriteriaERD" then
      some ⟨.CICPCriteriaNRD, .CICPCriteriaERD, .CLevMarqGSO, ini, rawlog, gt, vis⟩
    else if strCmpI edge_reg "CLoopCloserERD" then
      some ⟨.CFixedIntervalsNRD, .CLoopCloserERD, .CLevMarqGSO, ini, rawlog, gt, vis⟩
    else if strCmpI edge_reg "CEmptyERD" then
      some ⟨.CICPCriteriaNRD, .CEmptyERD, .CLevMarqGSO, ini, rawlog, gt, vis⟩
    else none
  else none

/-- One engine block: declare `graph_engine` and call `parseRawlogFile()`.
`completes e` tells whether the constructor and `parseRawlogFile` of engine
`e` finish without throwing. -/
def engineBlock (completes : CGraphSlamEngine → Bool) (e : Option CGraphSlamEngine)
    (k : List CGraphSlamEngine × TryExit) : List CGraphSlamEngine × TryExit :=
  match e with
  | none => k
  | some eng => if completes eng then (eng :: k.1, k.2) else ([eng], .threw)

/-- Modelled from the spec: the macro `ASSERTMSG_(cond, msg)` is defined in
`mrpt/utils/mrpt_macros.h`, which is not among the sources; an invalid
configuration is a fatal error, so a false condition throws.  `k` is the rest
of the block. -/
def ASSERTMSG_ (cond : Bool) (k : List CGraphSlamEngine × TryExit) :
    List CGraphSlamEngine × TryExit :=
  if cond then k else ([], .threw)

/-- The body of the `try` block of `main`, from "Input Validation" on. -/
def mainTry (completes : CGraphSlamEngine → Bool) (a : CmdLine) :
    List CGraphSlamEngine × TryExit :=
  if !a.parse_ok || a.showVersion || a.showHelp then ([], .returned 0)
  else
    -- decide on the SwitchArgs
    let list_registrars :=
      a.list_all_registrars || a.list_node_registrars || a.list_edge_registrars
    if list_registrars || a.list_optimizers then ([], .returned 0)
    else
      let node_reg := a.arg_node_reg
      let edge_reg := a.arg_edge_reg
      let optimizer := a.arg_optimizer
      match checkRegistrationDeciderExists node_reg "node",
            checkRegistrationDeciderExists edge_reg "edge" with
      | some nodeOk, some edgeOk =>
        ASSERTMSG_ nodeOk <|
        ASSERTMSG_ edgeOk <|
        ASSERTMSG_ (checkOptimizerExists optimizer) <|
        ASSERTMSG_ a.arg_ini_file.isSome <|
        ASSERTMSG_ a.arg_rawlog_file.isSome <|
          let ini_fname := a.arg_ini_file.getD ""
          let rawlog_fname := a.arg_rawlog_file.getD ""
          let ground_truth_fname := a.arg_ground_truth_file.getD ""
          let vis := !a.disable_visuals
          engineBlock completes
            (dispatchFixedIntervals node_reg edge_reg ini_fname rawlog_fname
              ground_truth_fname vis) <|
          engineBlock completes
            (dispatchEmptyOrICP node_reg edge_reg ini_fname rawlog_fname
              ground_truth_fname vis) <|
          ([], .fellThrough)
      | _, _ => ([], .threw)

/-- The function `main`: the `try` block, the two `catch` handlers (both
return -1) and the final `return 0`. -/
def main (completes : CGraphSlamEngine → Bool) (a : CmdLine) : MainRun :=
  let r := mainTry completes a
  { engines := r.1
    ret := match r.2 with
      | .returned c => c
      | .threw => -1
      | .fellThrough => 0 }

/-- A decider of type `ty` ("Node" or "Edge") is registered in `deciders_vec`
under a name equal to `n` up to case. -/
def registeredDecider (ty n : String) : Prop :=
  ∃ d ∈ deciders_vec, d.type = ty ∧ strCmpI d.name n = true

/-- An optimizer is registered in `optimizers_vec` under a name equal to `n`
up to case. -/
def registeredOptimizer (n : String) : Prop :=
  ∃ o ∈ optimizers_vec, strCmpI o.name n = true

/-- The command line `graphslam-engine -n CEmptyNRD -e CLoopCloserERD -i a.ini -r a.rawlog`. -/
def cmdline_empty_loopcloser : CmdLine :=
  { CmdLine.defaults with
    arg_node_reg := "CEmptyNRD", arg_edge_reg := "CLoopCloserERD"
    arg_ini_file := some "a.ini", arg_rawlog_file := some "a.rawlog" }

/-- The command line `graphslam-engine -n CICPCriteriaNRD -e CLoopCloserERD -i a.ini -r a.rawlog`. -/
def cmdline_icp_loopcloser : CmdLine :=
  { CmdLine.defaults with
    arg_node_reg := "CICPCriteriaNRD", arg_edge_reg := "CLoopCloserERD"
    arg_ini_file := some "a.ini", arg_rawlog_file := some "a.rawlog" }

/-- The command line `graphslam-engine --list-regs` (no .ini, no rawlog). -/
def cmdline_list_regs : CmdLine :=
  { CmdLine.defaults with list_all_registrars := true }

/-- The command line `graphslam-engine -n NoSuchNRD -i a.ini -r a.rawlog`. -/
def cmdline_unknown_node_reg : CmdLine :=
  { CmdLine.defaults with
    arg_node_reg := "NoSuchNRD"
    arg_ini_file := some "a.ini", arg_rawlog_file := some "a.rawlog" }

end graphslam_engine

/-! ## Pose-graph SLAM core (decision pipeline, optimizer, engine)

The classes `CGraphSlamEngine`, `CFixedIntervalsNRD`, `CEmptyNRD`, `CEmptyERD`
and `CLevMarqGSO` are instantiated by `main` but declared in `mrpt/graphslam.h`,
which is not among the sources.  This section follows the specification of the
core instead.  Poses and information matrices are abstract types `P` and `I`;
pose composition is `*` and the identity pose is `1`; lengths and angles are
rationals. -/

namespace graphslam

/-- Modelled from the spec: a node of the pose graph (data model), the class
behind `CNetworkOfPoses2DInf` nodes being absent from the sources. -/
structure Node (P : Type) where
  id : Nat
  pose : P
  fixed : Bool

/-- Modelled from the spec: the kind of an edge (odometry, alignment or
loop closure); the source type is absent. -/
inductive EdgeKind
  | odometry
  | alignment
  | loop_closure
  deriving DecidableEq, Repr

/-- Modelled from the spec: an edge of the pose graph, a relative-pose
measurement with its information matrix; the source type is absent. -/
structure Edge (P I : Type) where
  from_id : Nat
  to_id : Nat
  relative_pose : P
  information : I
  kind : EdgeKind

/-- Modelled from the spec: the pose graph (nodes, edge list, root id); the
source type `CNetworkOfPoses2DInf` is absent. -/
structure PoseGraph (P I : Type) where
  nodes : List (Node P)
  edges : List (Edge P I)
  root : Nat

/-- Modelled from the spec: the graph the engine constructs in INIT, holding
only the root: node 0, fixed, identity pose. -/
def PoseGraph.init (P I : Type) [One P] : PoseGraph P I :=
  { nodes := [⟨0, 1, true⟩], edges := [], root := 0 }

/-- Modelled from the spec: the pose estimate stored for node `id`, if the
node exists. -/
def PoseGraph.poseOf {P I : Type} (g : PoseGraph P I) (id : Nat) : Option P :=
  (g.nodes.find? (fun n => n.id == id)).map (fun n => n.pose)

/-- Modelled from the spec: the ids of the nodes, in registration order. -/
def PoseGraph.nodeIds {P I : Type} (g : PoseGraph P I) : List Nat :=
  g.nodes.map (fun n => n.id)

/-- Modelled from the spec: the output of a node decider, the new node's
initial pose estimate and the connecting edge to the previous node. -/
structure NewNodeProposal (P I : Type) where
  pose : P
  relative_pose : P
  information : I
  kind : EdgeKind

/-- Modelled from the spec: the Node Registration Decider capability,
`consider(motion_increment, observation) -> Option<NewNodeProposal>` over
stream records `R`, with the decider's own state. -/
structure NodeDecider (R P I : Type) where
  State : Type
  init : State
  consider : State → R → State × Option (NewNodeProposal P I)

/-- Modelled from the spec: the Edge Registration Decider capability,
`consider(new_node, observation, graph) -> Set<NewEdgeProposal>`, invoked once
per newly registered node. -/
structure EdgeDecider (R P I : Type) where
  State : Type
  init : State
  consider : State → Node P → R → PoseGraph P I → State × List (Edge P I)

/-- Modelled from the spec: the no-op node decider (`CEmptyNRD`, absent from
the sources), which never registers. -/
def noopNodeDecider (R P I : Type) : NodeDecider R P I :=
  { State := Unit, init := (), consider := fun s _ => (s, none) }

/-- Modelled from the spec: the no-op edge decider (`CEmptyERD`, absent from
the sources), which emits nothing. -/
def noopEdgeDecider (R P I : Type) : EdgeDecider R P I :=
  { State := Unit, init := (), consider := fun s _ _ _ => (s, []) }

/-- Modelled from the spec: a motion increment, the rigid transform since the
previous record with the length of its translation and the magnitude of its
rotation. -/
structure MotionIncrement (P : Type) where
  distance : ℚ
  angle : ℚ
  delta : P

/-- Modelled from the spec: one stream record, a motion increment and an
observation set. -/
structure Record (P O : Type) where
  motion : MotionIncrement P
  observations : O

/-- Modelled from the spec: the recognised options of the node decider. -/
structure NodeDeciderOptions where
  linear_distance_threshold : ℚ
  angular_distance_threshold : ℚ

/-- Modelled from the spec: the state of the fixed-interval node decider
(`CFixedIntervalsNRD`, absent from the sources): accumulated distance and
angle since the last registered node, the motion accumulated since then, and
the current pose estimate. -/
structure FixedIntervalState (P : Type) where
  acc_distance : ℚ
  acc_angle : ℚ
  acc_motion : P
  estimate : P

/-- Modelled from the spec: what an accumulator resets to at a registration,
the residual above its threshold (nothing when the threshold was not
exceeded). -/
def residual (x threshold : ℚ) : ℚ :=
  if threshold < x then x - threshold else 0

/-- Modelled from the spec: `consider` of the fixed-interval node decider.
It registers when the accumulated translation or rotation since the last
node exceeds its threshold, using the accumulated motion directly as the new
edge; the accumulators then reset to the residual. -/
def fixedIntervalConsider {P I O : Type} [Mul P] [One P] (opts : NodeDeciderOptions)
    (odometry_information : I) (s : FixedIntervalState P) (r : Record P O) :
    FixedIntervalState P × Option (NewNodeProposal P I) :=
  let d := s.acc_distance + r.motion.distance
  let a := s.acc_angle + r.motion.angle
  let m := s.acc_motion * r.motion.delta
  let e := s.estimate * r.motion.delta
  if opts.linear_distance_threshold < d ∨ opts.angular_distance_threshold < a then
    ({ acc_distance := residual d opts.linear_distance_threshold
       acc_angle := residual a opts.angular_distance_threshold
       acc_motion := 1
       estimate := e },
     some { pose := e, relative_pose := m, information := odometry_information,
            kind := .odometry })
  else
    ({ acc_distance := d, acc_angle := a, acc_motion := m, estimate := e }, none)

/-- Modelled from the spec: the fixed-interval node decider as a
`NodeDecider`, starting with nothing accumulated at the identity pose. -/
def fixedIntervalNodeDecider (P I O : Type) [Mul P] [One P] (opts : NodeDeciderOptions)
    (odometry_information : I) : NodeDecider (Record P O) P I :=
  { State := FixedIntervalState P
    init := { acc_distance := 0, acc_angle := 0, acc_motion := 1, estimate := 1 }
    consider := fixedIntervalConsider opts odometry_information }

/-- Modelled from the spec: feeding a sequence of records to a node decider
from state `s`; the result is the final state and the proposals made, in
order. -/
def NodeDecider.feed {R P I : Type} (nd : NodeDecider R P I) :
    nd.State → List R → nd.State × List (NewNodeProposal P I)
  | s, [] => (s, [])
  | s, r :: rs =>
    let step := nd.consider s r
    let rest := NodeDecider.feed nd step.1 rs
    (rest.1, step.2.toList ++ rest.2)

/-- Modelled from the spec: the recognised options of the optimizer. -/
structure OptimizerOptions where
  max_iterations : Nat
  convergence_tolerance : ℚ
  initial_damping : ℚ
  optimize_every_n_edges : Nat

/-- Modelled from the spec: the numerical primitives the optimizer treats as
black boxes.  `residual` is the total weighted residual of a graph; `solve g
lambda id p` is the pose of the solved variable `id` (currently `p`) after the
increment obtained from the damped normal equations of `g`; `decrease` and
`increase` are the damping schedule. -/
structure LevMarqPrimitives (P I : Type) where
  residual : PoseGraph P I → ℚ
  solve : PoseGraph P I → ℚ → Nat → P → P
  decrease : ℚ → ℚ
  increase : ℚ → ℚ

/-- Modelled from the spec: tentatively applying a pose increment.  The root
node's pose is excluded from the solved variable set (gauge fix), so only
the other nodes move. -/
def applyIncrement {P I : Type} (g : PoseGraph P I) (incr : Nat → P → P) : PoseGraph P I :=
  { g with nodes := g.nodes.map (fun n =>
      if n.id = g.root then n else { n with pose := incr n.id n.pose }) }

/-- Modelled from the spec: the Levenberg-Marquardt iterations (`CLevMarqGSO`,
absent from the sources) with `k` iterations left.  A step that decreases the
total residual is accepted and the damping decreased, otherwise it is reverted
and the damping increased; the loop stops when the improvement falls below the
tolerance (converged) or no iteration is left (best-so-far estimate, not
converged). -/
def levMarqIterate {P I : Type} (prim : LevMarqPrimitives P I) (tol : ℚ) :
    Nat → PoseGraph P I → ℚ → PoseGraph P I × Bool
  | 0, g, _ => (g, false)
  | k + 1, g, lambda =>
    let candidate := applyIncrement g (prim.solve g lambda)
    if prim.residual candidate < prim.residual g then
      if prim.residual g - prim.residual candidate < tol then (candidate, true)
      else levMarqIterate prim tol k candidate (prim.decrease lambda)
    else levMarqIterate prim tol k g (prim.increase lambda)

/-- Modelled from the spec: `optimize(graph) -> refined poses, convergence
status`; damping and iteration counter are re-initialised at each call. -/
def levMarqOptimize {P I : Type} (prim : LevMarqPrimitives P I) (opts : OptimizerOptions)
    (g : PoseGraph P I) : PoseGraph P I × Bool :=
  levMarqIterate prim opts.convergence_tolerance opts.max_iterations g opts.initial_damping

/-- Modelled from the spec: the state the engine (`CGraphSlamEngine`, absent
from the sources) carries through STREAMING: the graph, the decider states,
the most recently registered node and the number of edges added since the
last optimizer run. -/
structure EngineState {R P I : Type} (nd : NodeDecider R P I) (ed : EdgeDecider R P I) where
  graph : PoseGraph P I
  nd_state : nd.State
  ed_state : ed.State
  last_node : Nat
  new_edges : Nat

/-- Modelled from the spec: INIT, an empty pose graph with the root node. -/
def Engine.init {R P I : Type} [One P] (nd : NodeDecider R P I) (ed : EdgeDecider R P I) :
    EngineState nd ed :=
  { graph := PoseGraph.init P I, nd_state := nd.init, ed_state := ed.init
    last_node := 0, new_edges := 0 }

/-- Modelled from the spec: the optimizer trigger policy, owned by the engine:
run after every configured number of new edges, and unconditionally whenever
a loop-closure edge was accepted. -/
def Engine.triggered {P I : Type} (every_n_edges new_edges : Nat) (accepted : List (Edge P I)) :
    Bool :=
  accepted.any (fun e => e.kind == EdgeKind.loop_closure) ||
    (decide (0 < new_edges) && decide (every_n_edges ≤ new_edges))

/-- Modelled from the spec: one STREAMING iteration.  The node decider is
invoked on the record; if it produces a node, the node and its edge are
appended and the edge decider is invoked on it and its edges appended; then
the trigger policy is evaluated and the optimizer run if triggered.
Visualisation and statistics are observers and are left out. -/
def Engine.step {R P I : Type} (nd : NodeDecider R P I) (ed : EdgeDecider R P I)
    (optimize : PoseGraph P I → PoseGraph P I × Bool) (every_n_edges : Nat)
    (st : EngineState nd ed) (r : R) : EngineState nd ed :=
  let considered := nd.consider st.nd_state r
  let registered : EngineState nd ed × List (Edge P I) :=
    match considered.2 with
    | none => ({ st with nd_state := considered.1 }, [])
    | some proposal =>
      let node : Node P := { id := st.graph.nodes.length, pose := proposal.pose, fixed := false }
      let edge : Edge P I :=
        { from_id := st.last_node, to_id := node.id, relative_pose := proposal.relative_pose
          information := proposal.information, kind := proposal.kind }
      let g1 : PoseGraph P I :=
        { st.graph with nodes := st.graph.nodes ++ [node], edges := st.graph.edges ++ [edge] }
      let decided := ed.consider st.ed_state node r g1
      ({ graph := { g1 with edges := g1.edges ++ decided.2 }
         nd_state := considered.1, ed_state := decided.1
         last_node := node.id, new_edges := st.new_edges + 1 + decided.2.length }, decided.2)
  if Engine.triggered every_n_edges registered.1.new_edges registered.2 then
    { registered.1 with graph := (optimize registered.1.graph).1, new_edges := 0 }
  else registered.1

/-- Modelled from the spec: the whole run, INIT, one STREAMING iteration per
record in order, then FINALIZE: one final optimizer pass regardless of the
trigger policy; the result is the final graph. -/
def Engine.run {R P I : Type} [One P] (nd : NodeDecider R P I) (ed : EdgeDecider R P I)
    (optimize : PoseGraph P I → PoseGraph P I × Bool) (every_n_edges : Nat)
    (stream : List R) : PoseGraph P I :=
  (optimize (stream.foldl (Engine.step nd ed optimize every_n_edges) (Engine.init nd ed)).graph).1

/-- While the records `rs` are fed one by one, starting with distance `d` and
rotation `a` accumulated, neither accumulator ever exceeds its threshold. -/
def staysWithin {P O : Type} (opts : NodeDeciderOptions) : ℚ → ℚ → List (Record P O) → Prop
  | _, _, [] => True
  | d, a, r :: rs =>
    d + r.motion.distance ≤ opts.linear_distance_threshold ∧
    a + r.motion.angle ≤ opts.angular_distance_threshold ∧
    staysWithin opts (d + r.motion.distance) (a + r.motion.angle) rs

/-- The total distance of a list of records. -/
def totalDistance {P O : Type} (rs : List (Record P O)) : ℚ :=
  (rs.map (fun r => r.motion.distance)).sum

/-- A record that moves straight by `d` metres (poses and observations
trivial). -/
def straight (d : ℚ) : Record Unit Unit :=
  { motion := { distance := d, angle := 0, delta := () }, observations := () }

/-- A record that moves by `d` metres while turning by `a` radians. -/
def turning (d a : ℚ) : Record Unit Unit :=
  { motion := { distance := d, angle := a, delta := () }, observations := () }

/-- Scenario B options: linear threshold 0.5, angular threshold 1. -/
def scenarioB : NodeDeciderOptions :=
  { linear_distance_threshold := 1 / 2, angular_distance_threshold := 1 }

/-- Trivial numerical primitives: zero residual and no pose change. -/
def idlePrimitives (P I : Type) : LevMarqPrimitives P I :=
  { residual := fun _ => 0, solve := fun _ _ _ p => p, decrease := id, increase := id }

/-- Primitives over integer poses whose solver moves every solved pose by one
and whose residual always improves. -/
def shiftPrimitives : LevMarqPrimitives Int Unit :=
  { residual := fun g => - ((g.nodes.map (fun n => (n.pose : ℚ))).sum)
    solve := fun _ _ _ p => p + 1, decrease := id, increase := id }

/-- Sample options: at most 3 iterations. -/
def sampleOptimizerOptions : OptimizerOptions :=
  { max_iterations := 3, convergence_tolerance := 0, initial_damping := 1
    optimize_every_n_edges := 1 }

/-- A two-node graph over integer poses with root 0. -/
def sampleGraph : PoseGraph Int Unit :=
  { nodes := [⟨0, 5, true⟩, ⟨1, 7, false⟩]
    edges := [⟨0, 1, 2, (), .odometry⟩], root := 0 }

end graphslam

/-! ## `size_t` -/

/-- The number of values of `size_t` (64 bits). -/
def SIZE_WIDTH : Nat := 2 ^ 64

namespace utils

/-! ## map_as_vector.h

`KEY` is `size_t`, embedded in `Nat`; an iterator is a position in `m_vec`, so
`begin()` is 0 and `end()` is `size()`.  Memory is taken to be unbounded:
`resize` never throws. -/

/-- The class `map_as_vector<KEY,VALUE>`: a vector of `std::pair<KEY,VALUE>`. -/
structure map_as_vector (VALUE : Type) where
  m_vec : List (Nat × VALUE)
  deriving DecidableEq, Repr

namespace map_as_vector

variable {VALUE : Type}

/-- The default constructor: an empty container. -/
def mk_empty : map_as_vector VALUE := ⟨[]⟩

/-- The method `size()`. -/
def size (m : map_as_vector VALUE) : Nat := m.m_vec.length

/-- The method `empty()`. -/
def empty (m : map_as_vector VALUE) : Bool := m.m_vec.isEmpty

/-- The iterator `begin()`. -/
def begin_ (_m : map_as_vector VALUE) : Nat := 0

/-- The iterator `end()`. -/
def end_ (m : map_as_vector VALUE) : Nat := m.m_vec.length

/-- Dereferencing an iterator: the pair it refers to, if it is not `end()`. -/
def deref (m : map_as_vector VALUE) (it : Nat) : Option (Nat × VALUE) := m.m_vec.get? it

/-- The method `count(i)`: `(i<m_vec.size()) ? 1 : 0`. -/
def count (m : map_as_vector VALUE) (i : Nat) : Nat :=
  if i < m.m_vec.length then 1 else 0

/-- The method `clear()`. -/
def clear (_m : map_as_vector VALUE) : map_as_vector VALUE := ⟨[]⟩

/-- The call `std::vector::resize(n)`: truncate, or append value-initialised pairs
(`KEY()` is 0, `VALUE()` is `default`). -/
def resize [Inhabited VALUE] (v : List (Nat × VALUE)) (n : Nat) : List (Nat × VALUE) :=
  v.take n ++ List.replicate (n - v.length) (0, default)

/-- The operator `operator[](i)`: `if (m_vec.size()<=i) m_vec.resize(i+1); m_vec[i].first=i;
return m_vec[i].second;`.  The result is the container afterwards and the value
the returned reference designates; `i+1` is computed in `size_t`, and an access
`m_vec[i]` beyond the size is undefined behaviour (`none`). -/
def operator_index [Inhabited VALUE] (m : map_as_vector VALUE) (i : Nat) :
    Option (map_as_vector VALUE × VALUE) :=
  let v1 := if m.m_vec.length ≤ i then resize m.m_vec ((i + 1) % SIZE_WIDTH) else m.m_vec
  match v1.get? i with
  | none => none
  | some p => some (⟨v1.set i (i, p.2)⟩, p.2)

/-- The overload `insert(keyvalpair)`: `this->operator[](keyvalpair.first)=keyvalpair;`.
The right-hand side is the whole pair, so the statement goes through the
assignment of a `std::pair<KEY,VALUE>` to a `VALUE`, here `assignPair`. -/
def insert [Inhabited VALUE] (assignPair : Nat × VALUE → VALUE) (m : map_as_vector VALUE)
    (keyvalpair : Nat × VALUE) : Option (map_as_vector VALUE) :=
  match m.operator_index keyvalpair.1 with
  | none => none
  | some (m1, _) => some ⟨m1.m_vec.set keyvalpair.1 (keyvalpair.1, assignPair keyvalpair)⟩

/-- The overload `insert(guess_point, keyvalpair)`: the same statement; `guess_point` is
ignored. -/
def insert_guess [Inhabited VALUE] (assignPair : Nat × VALUE → VALUE) (m : map_as_vector VALUE)
    (_guess_point : Nat) (keyvalpair : Nat × VALUE) : Option (map_as_vector VALUE) :=
  match m.operator_index keyvalpair.1 with
  | none => none
  | some (m1, _) => some ⟨m1.m_vec.set keyvalpair.1 (keyvalpair.1, assignPair keyvalpair)⟩

/-- The method `find(i)`: `if (i<m_vec.size()) return m_vec.begin()+i; else return m_vec.end();`. -/
def find (m : map_as_vector VALUE) (i : Nat) : Nat :=
  if i < m.m_vec.length then 0 + i else m.m_vec.length

end map_as_vector

/-- A `VALUE` type that can be assigned from anything (in the manner of
`boost::any`): it holds a number or a key/value pair. -/
inductive AnyValue
  | empty
  | num (n : Nat)
  | pair (key : Nat) (value : AnyValue)
  deriving DecidableEq, Repr

instance : Inhabited AnyValue := ⟨AnyValue.empty⟩

/-- Assignment of a `std::pair<size_t,AnyValue>` to an `AnyValue`: the value
then holds the pair. -/
def AnyValue.assignPair (p : Nat × AnyValue) : AnyValue := AnyValue.pair p.1 p.2

end utils

namespace graphs

/-! ## CDirectedTree.h -/

/-- The struct `CDirectedTree::TEdgeInfo`. -/
structure TEdgeInfo (TYPE_EDGES : Type) where
  id : Nat
  reverse : Bool
  data : TYPE_EDGES
  deriving DecidableEq, Repr

/-- The type `TListEdges`, a `std::list<TEdgeInfo>`. -/
abbrev TListEdges (TYPE_EDGES : Type) := List (TEdgeInfo TYPE_EDGES)

/-- The type `TMapNode2ListEdges`, a `std::map<TNodeID,TListEdges>`, as an association
list; `find` returns the entry of the first matching key. -/
abbrev TMapNode2ListEdges (TYPE_EDGES : Type) := List (Nat × TListEdges TYPE_EDGES)

/-- The call `std::map::find`, `none` standing for `end()`. -/
def mapFind {TYPE_EDGES : Type} (m : TMapNode2ListEdges TYPE_EDGES) (key : Nat) :
    Option (TListEdges TYPE_EDGES) :=
  match m with
  | [] => none
  | (k, v) :: rest => if k = key then some v else mapFind rest key

/-- The class `CDirectedTree<TYPE_EDGES>`. -/
structure CDirectedTree (TYPE_EDGES : Type) where
  root : Nat
  edges_to_children : TMapNode2ListEdges TYPE_EDGES

/-- A `Visitor`: the effect of `OnVisitNode(parent, edge_to_child, depth_level)`
on the visitor's state. -/
abbrev Visitor (σ TYPE_EDGES : Type) := σ → Nat → TEdgeInfo TYPE_EDGES → Nat → σ

/-- One call of `OnVisitNode`: parent, edge and depth level. -/
abbrev VisitCall (TYPE_EDGES : Type) := Nat × TEdgeInfo TYPE_EDGES × Nat

/-- The visitor that records the calls it receives, in order. -/
def recordCalls (TYPE_EDGES : Type) : Visitor (List (VisitCall TYPE_EDGES)) TYPE_EDGES :=
  fun calls parent edge_to_child depth_level => calls ++ [(parent, edge_to_child, depth_level)]

/-- The method `visitDepthFirst(root, user_visitor, root_depth_level)`.  The first
argument bounds the depth of the recursion; `none` means the bound was
reached.  `root_depth_level+1` is computed in `size_t`. -/
def CDirectedTree.visitDepthFirst {σ TYPE_EDGES : Type} (t : CDirectedTree TYPE_EDGES)
    (user_visitor : Visitor σ TYPE_EDGES) : Nat → Nat → σ → Nat → Option σ
  | 0, _, _, _ => none
  | fuel + 1, root, s, root_depth_level =>
    let next_depth_level := (root_depth_level + 1) % SIZE_WIDTH
    match mapFind t.edges_to_children root with
    | none => some s
    | some children =>
      children.foldlM (fun s itEdge =>
        t.visitDepthFirst user_visitor fuel itEdge.id
          (user_visitor s root itEdge next_depth_level) next_depth_level) s

/-- The method `visitBreadthFirst(root, user_visitor, root_depth_level)`: a first loop
calls `OnVisitNode` on every child edge, a second loop calls `visitDepthFirst`
on every child. -/
def CDirectedTree.visitBreadthFirst {σ TYPE_EDGES : Type} (t : CDirectedTree TYPE_EDGES)
    (user_visitor : Visitor σ TYPE_EDGES) (fuel : Nat) (root : Nat) (s : σ)
    (root_depth_level : Nat) : Option σ :=
  let next_depth_level := (root_depth_level + 1) % SIZE_WIDTH
  match mapFind t.edges_to_children root with
  | none => some s
  | some children =>
    let s1 := children.foldl (fun s itEdge => user_visitor s root itEdge next_depth_level) s
    children.foldlM (fun s itEdge =>
      t.visitDepthFirst user_visitor fuel itEdge.id s next_depth_level) s1

/-- A finite forest of edges: `cons e sub rest` is the edge `e`, the forest
`sub` below the child `e.id`, and the following sibling edges `rest`.  A finite
tree below a start node is the forest of that node's child edges. -/
inductive Forest (TYPE_EDGES : Type)
  | nil
  | cons (e : TEdgeInfo TYPE_EDGES) (sub : Forest TYPE_EDGES) (rest : Forest TYPE_EDGES)

namespace Forest

variable {TYPE_EDGES : Type}

/-- The child list of the node whose children forest is `f`. -/
def edges : Forest TYPE_EDGES → TListEdges TYPE_EDGES
  | nil => []
  | cons e _ rest => e :: edges rest

/-- The number of edges of the forest. -/
def numEdges : Forest TYPE_EDGES → Nat
  | nil => 0
  | cons _ sub rest => 1 + numEdges sub + numEdges rest

/-- The number of edges on the longest downward path. -/
def height : Forest TYPE_EDGES → Nat
  | nil => 0
  | cons _ sub rest => max (height sub + 1) (height rest)

/-- The map holds `f` as the children of `node`: its entry is the child list,
or there is no entry when there are no children. -/
def heldAt (m : TMapNode2ListEdges TYPE_EDGES) (node : Nat) (f : Forest TYPE_EDGES) : Prop :=
  mapFind m node = some f.edges ∨ (f = nil ∧ mapFind m node = none)

/-- Below every edge of the forest, the map holds the forest's subtrees. -/
def storedBelow (m : TMapNode2ListEdges TYPE_EDGES) : Forest TYPE_EDGES → Prop
  | nil => True
  | cons e sub rest => heldAt m e.id sub ∧ storedBelow m sub ∧ storedBelow m rest

/-- The finite tree whose start node `node` has the children forest `f` is
stored in the map. -/
def storedAt (m : TMapNode2ListEdges TYPE_EDGES) (node : Nat) (f : Forest TYPE_EDGES) : Prop :=
  heldAt m node f ∧ storedBelow m f

/-- The edges of the forest below `parent` in depth-first pre-order, following
child-list order; each comes with its parent and with the number of edges on
the path from the start node to its child, the top level being at `k`. -/
def preorder (parent : Nat) (k : Nat) : Forest TYPE_EDGES → List (VisitCall TYPE_EDGES)
  | nil => []
  | cons e sub rest => (parent, e, k) :: (preorder e.id (k + 1) sub ++ preorder parent k rest)

end Forest

/-- A single edge record with no user data. -/
def edgeTo (id : Nat) : TEdgeInfo Unit := { id := id, reverse := false, data := () }

/-- The documented tree: 0 -> {1,2,3}, 2 -> {4,5}. -/
def docTree : CDirectedTree Unit :=
  { root := 0
    edges_to_children := [(0, [edgeTo 1, edgeTo 2, edgeTo 3]), (2, [edgeTo 4, edgeTo 5])] }

/-- The documented tree as a forest below node 0. -/
def docForest : Forest Unit :=
  .cons (edgeTo 1) .nil <|
  .cons (edgeTo 2) (.cons (edgeTo 4) .nil (.cons (edgeTo 5) .nil .nil)) <|
  .cons (edgeTo 3) .nil .nil

/-- The tree 0 -> {1,2}, 1 -> {3}, 3 -> {4}, 2 -> {5}. -/
def deepTree : CDirectedTree Unit :=
  { root := 0
    edges_to_children :=
      [(0, [edgeTo 1, edgeTo 2]), (1, [edgeTo 3]), (2, [edgeTo 5]), (3, [edgeTo 4])] }

/-- Breadth-first order of a call sequence: no call at depth `d+1` comes
before a call at depth `d`. -/
def levelOrdered {TYPE_EDGES : Type} (calls : List (VisitCall TYPE_EDGES)) : Prop :=
  calls.Pairwise (fun earlier later => earlier.2.2 ≠ later.2.2 + 1)

end graphs

namespace graphs

/-! ## CDirectedTree.h: text description

The `std::ostringstream` is the text written so far; `std::endl` writes a line
feed. -/

/-- The value `std::string(n, ' ')`: `n` blanks. -/
def blanks (n : Nat) : String := String.mk (List.replicate n ' ')

/-- Output of an unsigned integer after `std::setw(3)`: its decimal digits,
right-justified to a width of 3 with blanks. -/
def setw3 (n : Nat) : String :=
  blanks (3 - (Nat.repr n).length) ++ Nat.repr n

/-- The method `CMyVisitor::OnVisitNode` of `getAsTextDescription`: one line
with `depth_level*5` blanks (the product computed in `size_t`), the arrow and
the child id. -/
def CMyVisitor (TYPE_EDGES : Type) : Visitor String TYPE_EDGES :=
  fun m_s _parent edge_to_child depth_level =>
    m_s ++ blanks ((depth_level * 5) % SIZE_WIDTH) ++
      (if edge_to_child.reverse then "<-" else "->") ++ setw3 edge_to_child.id ++ "\n"

/-- The method `getAsTextDescription()`: the root line, then `visitDepthFirst`
from the root with `CMyVisitor`.  The argument bounds the recursion depth of
the visit. -/
def CDirectedTree.getAsTextDescription {TYPE_EDGES : Type} (t : CDirectedTree TYPE_EDGES)
    (fuel : Nat) : Option String :=
  let s := "" ++ setw3 t.root ++ "\n"
  t.visitDepthFirst (CMyVisitor TYPE_EDGES) fuel t.root s 0

/-- The line `getAsTextDescription` writes for an edge: `indent` blanks, the
arrow (`<-` for a reversed edge, `->` otherwise), the child id and a line
feed. -/
def edgeLine {TYPE_EDGES : Type} (e : TEdgeInfo TYPE_EDGES) (indent : Nat) : String :=
  blanks indent ++ (if e.reverse then "<-" else "->") ++ setw3 e.id ++ "\n"

/-- Concatenation of a list of lines. -/
def concatLines : List String → String
  | [] => ""
  | l :: ls => l ++ concatLines ls

/-- A tree with one reversed edge: 7 -> {8}, 8 <- {120}. -/
def reversedTree : CDirectedTree Unit :=
  { root := 7
    edges_to_children :=
      [(7, [edgeTo 8]), (8, [{ id := 120, reverse := true, data := () }])] }

end graphs

namespace opengl

/-! ## COpenGLStandardObject.h

`_GLENUM` and `uint32_t` values are natural numbers (no arithmetic is done on
them that could overflow).  The only floating-point value the class computes
with is the constant 0.0 of the normal, so coordinates are rationals.  The
display-list state of the base class `CRenderizableDisplayList`, which
`notifyChange()` touches, is not part of the object modelled here. -/

/-- The struct `TPoint3D` (declared in `mrpt/math/lightweight_geom_data.h`). -/
structure TPoint3D where
  x : ℚ
  y : ℚ
  z : ℚ
  deriving DecidableEq

/-- The data members of the class `COpenGLStandardObject`. -/
structure COpenGLStandardObject where
  type : Nat
  vertices : List TPoint3D
  chunkSize : Nat
  enabled : List Nat
  normal : ℚ × ℚ × ℚ
  deriving DecidableEq

namespace COpenGLStandardObject

/-- The private constructor with all the information; the normal is set to
zero. -/
def ctor (t : Nat) (v : List TPoint3D) (cs : Nat) (en : List Nat) : COpenGLStandardObject :=
  { type := t, vertices := v, chunkSize := cs, enabled := en, normal := (0, 0, 0) }

/-- The static method `Create(t, v, cs, en)`; `Except.error` is the
`std::logic_error` thrown, with its message. -/
def Create (t : Nat) (v : List TPoint3D) (cs : Nat) (en : List Nat) :
    Except String COpenGLStandardObject :=
  if cs != 0 && v.length % cs != 0 then
    Except.error "Vertices vector does not match chunk size"
  else Except.ok (ctor t v cs en)

/-- The call `std::find(first, last, value)` on a whole vector: the position of
the first element equal to `value`, or the size of the vector (`end()`). -/
def std_find (vec : List Nat) (value : Nat) : Nat :=
  match vec with
  | [] => 0
  | x :: rest => if x = value then 0 else std_find rest value + 1

/-- The loop of `std::remove`: `first` runs to the end of the vector, every
element different from `value` is assigned to position `result`, which then
advances.  The first argument bounds the number of iterations.  The outcome is
the vector and the final `result`. -/
def std_remove_loop (value : Nat) : Nat → List Nat → Nat → Nat → List Nat × Nat
  | 0, vec, result, _ => (vec, result)
  | n + 1, vec, result, first =>
    match vec.get? first with
    | none => (vec, result)
    | some x =>
      if x = value then std_remove_loop value n vec result (first + 1)
      else std_remove_loop value n (vec.set result x) (result + 1) (first + 1)

/-- The call `std::remove(vec.begin(), vec.end(), value)` on a vector of
integers: `find` the first match, then the loop.  The size of the vector does
not change; the outcome is the vector afterwards and the returned iterator. -/
def std_remove (vec : List Nat) (value : Nat) : List Nat × Nat :=
  let first := std_find vec value
  if first = vec.length then (vec, first)
  else std_remove_loop value vec.length vec first (first + 1)

/-- The method `enable(flag)`. -/
def enable (o : COpenGLStandardObject) (flag : Nat) : COpenGLStandardObject :=
  if std_find o.enabled flag = o.enabled.length then { o with enabled := o.enabled ++ [flag] }
  else o

/-- The method `disable(flag)`: it calls `std::remove` and drops the iterator
it returns. -/
def disable (o : COpenGLStandardObject) (flag : Nat) : COpenGLStandardObject :=
  { o with enabled := (std_remove o.enabled flag).1 }

/-- The method `isEnabled(flag)`. -/
def isEnabled (o : COpenGLStandardObject) (flag : Nat) : Bool :=
  std_find o.enabled flag != o.enabled.length

/-- The method `getEnabledFlags(v)`. -/
def getEnabledFlags (o : COpenGLStandardObject) : List Nat := o.enabled

/-- The method `setFlags(v)`. -/
def setFlags (o : COpenGLStandardObject) (v : List Nat) : COpenGLStandardObject :=
  { o with enabled := v }

end COpenGLStandardObject

/-- The OpenGL constant `GL_TRIANGLES`. -/
def GL_TRIANGLES : Nat := 4

/-- The OpenGL constant `GL_LIGHTING`. -/
def GL_LIGHTING : Nat := 2896

/-- The OpenGL constant `GL_BLEND`. -/
def GL_BLEND : Nat := 3042

/-- Three vertices of a triangle. -/
def triangle : List TPoint3D := [⟨0, 0, 0⟩, ⟨1, 0, 0⟩, ⟨0, 1, 0⟩]

/-- The object `Create(GL_TRIANGLES, triangle, 3)` returns. -/
def triangleObject : COpenGLStandardObject :=
  COpenGLStandardObject.ctor GL_TRIANGLES triangle 3 []

end opengl

/-! # Theorems -/

/-- A string equal to `a` up to case compares with any `b` as `a` does. -/
theorem strCmpI_congr_left (x a b : String) (h : strCmpI x a = true) :
    strCmpI x b = strCmpI a b := by
  simp only [strCmpI, beq_iff_eq] at h
  simp only [strCmpI, h]

namespace graphslam_engine

theorem checkRegistrationDeciderExists_node (n : String) :
    checkRegistrationDeciderExists n "node" = some (deciderLoop n "node" deciders_vec) := by
  have h3 : (strCmpI "node" "node" || strCmpI "node" "edge") = true := by decide
  simp only [checkRegistrationDeciderExists, h3, if_true]

theorem checkRegistrationDeciderExists_edge (n : String) :
    checkRegistrationDeciderExists n "edge" = some (deciderLoop n "edge" deciders_vec) := by
  have h3 : (strCmpI "edge" "node" || strCmpI "edge" "edge") = true := by decide
  simp only [checkRegistrationDeciderExists, h3, if_true]

theorem deciderLoop_node_iff (n : String) :
    deciderLoop n "node" deciders_vec = true ↔ registeredDecider "Node" n := by
  have h1 : strCmpI "Node" "node" = true := by decide
  have h2 : strCmpI "Edge" "node" = false := by decide
  simp only [registeredDecider, deciders_vec, deciderLoop, h1, h2]
  simp

theorem deciderLoop_edge_iff (n : String) :
    deciderLoop n "edge" deciders_vec = true ↔ registeredDecider "Edge" n := by
  have h1 : strCmpI "Node" "edge" = false := by decide
  have h2 : strCmpI "Edge" "edge" = true := by decide
  simp only [registeredDecider, deciders_vec, deciderLoop, h1, h2]
  simp

theorem checkOptimizerExists_iff (n : String) :
    checkOptimizerExists n = true ↔ registeredOptimizer n := by
  simp [checkOptimizerExists, registeredOptimizer, optimizers_vec, optimizerLoop]

/-- Once validation has passed, the `try` block is the two dispatch statements. -/
theorem mainTry_of_valid (completes : CGraphSlamEngine → Bool) (a : CmdLine) (ini rawlog : String)
    (hparse : a.parse_ok = true) (hhelp : a.showHelp = false) (hver : a.showVersion = false)
    (hln : a.list_node_registrars = false) (hle : a.list_edge_registrars = false)
    (hla : a.list_all_registrars = false) (hlo : a.list_optimizers = false)
    (hn : deciderLoop a.arg_node_reg "node" deciders_vec = true)
    (he : deciderLoop a.arg_edge_reg "edge" deciders_vec = true)
    (ho : checkOptimizerExists a.arg_optimizer = true)
    (hini : a.arg_ini_file = some ini) (hraw : a.arg_rawlog_file = some rawlog) :
    mainTry completes a =
      engineBlock completes
        (dispatchFixedIntervals a.arg_node_reg a.arg_edge_reg ini rawlog
          (a.arg_ground_truth_file.getD "") (!a.disable_visuals))
        (engineBlock completes
          (dispatchEmptyOrICP a.arg_node_reg a.arg_edge_reg ini rawlog
            (a.arg_ground_truth_file.getD "") (!a.disable_visuals))
          ([], .fellThrough)) := by
  simp [mainTry, hparse, hhelp, hver, hln, hle, hla, hlo, hn, he, ho, hini, hraw,
    checkRegistrationDeciderExists_node, checkRegistrationDeciderExists_edge, ASSERTMSG_]

/-- C1 (evaluation at the failing inputs): with node decider name CEmptyNRD (resp.
CICPCriteriaNRD) and edge decider name CLoopCloserERD, both of which pass
validation, the single engine `main` constructs and runs is instantiated with
the node decider CFixedIntervalsNRD, not with the one that was named. -/
theorem main_loopcloser_builds_CFixedIntervalsNRD (completes : CGraphSlamEngine → Bool) :
    registeredDecider "Node" "CEmptyNRD" ∧ registeredDecider "Node" "CICPCriteriaNRD" ∧
    registeredDecider "Edge" "CLoopCloserERD" ∧
    (main completes cmdline_empty_loopcloser).engines =
      [⟨.CFixedIntervalsNRD, .CLoopCloserERD, .CLevMarqGSO, "a.ini", "a.rawlog", "", true⟩] ∧
    (main completes cmdline_icp_loopcloser).engines =
      [⟨.CFixedIntervalsNRD, .CLoopCloserERD, .CLevMarqGSO, "a.ini", "a.rawlog", "", true⟩] := by
  refine ⟨?_, ?_, ?_, ?_, ?_⟩
  · exact (deciderLoop_node_iff _).1 (by decide)
  · exact (deciderLoop_node_iff _).1 (by decide)
  · exact (deciderLoop_edge_iff _).1 (by decide)
  · have d1 : dispatchFixedIntervals "CEmptyNRD" "CLoopCloserERD" "a.ini" "a.rawlog" "" true
        = none := by decide
    have d2 : dispatchEmptyOrICP "CEmptyNRD" "CLoopCloserERD" "a.ini" "a.rawlog" "" true
        = some ⟨.CFixedIntervalsNRD, .CLoopCloserERD, .CLevMarqGSO, "a.ini", "a.rawlog", "", true⟩ := by
      decide
    have h := mainTry_of_valid completes cmdline_empty_loopcloser "a.ini" "a.rawlog"
      rfl rfl rfl rfl rfl rfl rfl (by decide) (by decide) (by decide) rfl rfl
    simp only [cmdline_empty_loopcloser, CmdLine.defaults, Option.getD, Bool.not_false] at h
    rw [d1, d2] at h
    simp only [main, cmdline_empty_loopcloser, CmdLine.defaults, h, engineBlock]
    split <;> rfl
  · have d1 : dispatchFixedIntervals "CICPCriteriaNRD" "CLoopCloserERD" "a.ini" "a.rawlog" "" true
        = none := by decide
    have d2 : dispatchEmptyOrICP "CICPCriteriaNRD" "CLoopCloserERD" "a.ini" "a.rawlog" "" true
        = some ⟨.CFixedIntervalsNRD, .CLoopCloserERD, .CLevMarqGSO, "a.ini", "a.rawlog", "", true⟩ := by
      decide
    have h := mainTry_of_valid completes cmdline_icp_loopcloser "a.ini" "a.rawlog"
      rfl rfl rfl rfl rfl rfl rfl (by decide) (by decide) (by decide) rfl rfl
    simp only [cmdline_icp_loopcloser, CmdLine.defaults, Option.getD, Bool.not_false] at h
    rw [d1, d2] at h
    simp only [main, cmdline_icp_loopcloser, CmdLine.defaults, h, engineBlock]
    split <;> rfl

/-- C2 (counterexample): on `graphslam-engine --list-regs` neither the .ini nor
the rawlog argument is set, yet `main` returns 0, not -1. -/
theorem main_list_regs_returns_zero :
    cmdline_list_regs.arg_ini_file = none ∧ cmdline_list_regs.arg_rawlog_file = none ∧
    main (fun _ => true) cmdline_list_regs = ⟨[], 0⟩ := by
  refine ⟨rfl, rfl, ?_⟩
  simp [main, mainTry, cmdline_list_regs, CmdLine.defaults]

/-- C2 (amended): when command-line parsing succeeded and no help, version or
listing switch was given, an unregistered node decider, edge decider or
optimizer name, or a missing .ini or rawlog argument, makes `main` return -1
without constructing any engine. -/
theorem main_invalid_configuration_fatal (completes : CGraphSlamEngine → Bool) (a : CmdLine)
    (hparse : a.parse_ok = true) (hhelp : a.showHelp = false) (hver : a.showVersion = false)
    (hln : a.list_node_registrars = false) (hle : a.list_edge_registrars = false)
    (hla : a.list_all_registrars = false) (hlo : a.list_optimizers = false)
    (hbad : ¬ registeredDecider "Node" a.arg_node_reg ∨
            ¬ registeredDecider "Edge" a.arg_edge_reg ∨
            ¬ registeredOptimizer a.arg_optimizer ∨
            a.arg_ini_file = none ∨ a.arg_rawlog_file = none) :
    main completes a = ⟨[], -1⟩ := by
  rw [← deciderLoop_node_iff, ← deciderLoop_edge_iff, ← checkOptimizerExists_iff] at hbad
  simp only [main, mainTry, hparse, hhelp, hver, hln, hle, hla, hlo,
    checkRegistrationDeciderExists_node, checkRegistrationDeciderExists_edge, ASSERTMSG_]
  by_cases h1 : deciderLoop a.arg_node_reg "node" deciders_vec = true
  · by_cases h2 : deciderLoop a.arg_edge_reg "edge" deciders_vec = true
    · by_cases h3 : checkOptimizerExists a.arg_optimizer = true
      · rcases hbad with h | h | h | h | h
        · exact absurd h1 h
        · exact absurd h2 h
        · exact absurd h3 h
        · simp [h1, h2, h3, h]
        · simp [h1, h2, h3, h]
      · simp [h1, h2, h3]
    · simp [h1, h2]
  · simp [h1]

theorem main_invalid_configuration_fatal_witness :
    ¬ registeredDecider "Node" cmdline_unknown_node_reg.arg_node_reg ∧
    main (fun _ => true) cmdline_unknown_node_reg = ⟨[], -1⟩ :=
  have h : ¬ registeredDecider "Node" cmdline_unknown_node_reg.arg_node_reg := by
    rw [← deciderLoop_node_iff]; decide
  ⟨h, main_invalid_configuration_fatal _ cmdline_unknown_node_reg rfl rfl rfl rfl rfl rfl rfl
    (Or.inl h)⟩

end graphslam_engine

namespace graphslam

section optimizer
variable {P I : Type}

theorem applyIncrement_root (g : PoseGraph P I) (incr : Nat → P → P) :
    (applyIncrement g incr).root = g.root := rfl

theorem applyIncrement_edges (g : PoseGraph P I) (incr : Nat → P → P) :
    (applyIncrement g incr).edges = g.edges := rfl

theorem applyIncrement_nodeIds (g : PoseGraph P I) (incr : Nat → P → P) :
    (applyIncrement g incr).nodeIds = g.nodeIds := by
  simp only [applyIncrement, PoseGraph.nodeIds, List.map_map]
  apply List.map_congr_left
  intro n _
  by_cases h : n.id = g.root <;> simp [h]

theorem find_root_map (root : Nat) (incr : Nat → P → P) (ns : List (Node P)) :
    (ns.map (fun n => if n.id = root then n else { n with pose := incr n.id n.pose })).find?
        (fun n => n.id == root) = ns.find? (fun n => n.id == root) := by
  induction ns with
  | nil => rfl
  | cons n ns ih =>
    by_cases h : n.id = root
    · simp [List.find?, h]
    · have hb : (n.id == root) = false := by simp [h]
      simp [List.find?, h, hb, ih]

theorem applyIncrement_poseOf_root (g : PoseGraph P I) (incr : Nat → P → P) :
    (applyIncrement g incr).poseOf g.root = g.poseOf g.root := by
  simp only [PoseGraph.poseOf, applyIncrement, find_root_map]

theorem applyIncrement_rootNodes (g : PoseGraph P I) (incr : Nat → P → P) :
    (applyIncrement g incr).nodes.filter (fun n => n.id == g.root) =
      g.nodes.filter (fun n => n.id == g.root) := by
  simp only [applyIncrement]
  induction g.nodes with
  | nil => rfl
  | cons n ns ih =>
    by_cases h : n.id = g.root
    · simp [List.filter, h, ih]
    · have hb : (n.id == g.root) = false := by simp [h]
      simp [List.filter, h, hb, ih]

/-- What every Levenberg-Marquardt run preserves. -/
theorem levMarqIterate_frame (prim : LevMarqPrimitives P I) (tol : ℚ) (k : Nat) :
    ∀ (g : PoseGraph P I) (lambda : ℚ),
      (levMarqIterate prim tol k g lambda).1.root = g.root ∧
      (levMarqIterate prim tol k g lambda).1.edges = g.edges ∧
      (levMarqIterate prim tol k g lambda).1.nodeIds = g.nodeIds ∧
      (levMarqIterate prim tol k g lambda).1.poseOf g.root = g.poseOf g.root ∧
      (levMarqIterate prim tol k g lambda).1.nodes.filter (fun n => n.id == g.root) =
        g.nodes.filter (fun n => n.id == g.root) := by
  induction k with
  | zero => intro g lambda; simp [levMarqIterate]
  | succ k ih =>
    intro g lambda
    simp only [levMarqIterate]
    split
    · split
      · exact ⟨rfl, rfl, applyIncrement_nodeIds _ _, applyIncrement_poseOf_root _ _,
          applyIncrement_rootNodes _ _⟩
      · have h := ih (applyIncrement g (prim.solve g lambda)) (prim.decrease lambda)
        simp only [applyIncrement_root, applyIncrement_edges, applyIncrement_nodeIds,
          applyIncrement_poseOf_root, applyIncrement_rootNodes] at h
        exact h
    · exact ih g (prim.increase lambda)

/-- C5: for every pose graph, damping schedule, solver and options, an
optimizer run leaves the root id and the root node (hence its pose) exactly as
they were; node ids and edges are unchanged too, so only poses of non-root
nodes may change. -/
theorem levMarqOptimize_root_pose_unchanged (prim : LevMarqPrimitives P I)
    (opts : OptimizerOptions) (g : PoseGraph P I) :
    (levMarqOptimize prim opts g).1.root = g.root ∧
    (levMarqOptimize prim opts g).1.poseOf g.root = g.poseOf g.root ∧
    (levMarqOptimize prim opts g).1.nodes.filter (fun n => n.id == g.root) =
      g.nodes.filter (fun n => n.id == g.root) ∧
    (levMarqOptimize prim opts g).1.nodeIds = g.nodeIds ∧
    (levMarqOptimize prim opts g).1.edges = g.edges := by
  have h := levMarqIterate_frame prim opts.convergence_tolerance opts.max_iterations g
    opts.initial_damping
  exact ⟨h.1, h.2.2.2.1, h.2.2.2.2, h.2.2.1, h.2.1⟩

theorem applyIncrement_init [One P] (incr : Nat → P → P) :
    applyIncrement (PoseGraph.init P I) incr = PoseGraph.init P I := by
  simp [applyIncrement, PoseGraph.init]

theorem levMarqIterate_init [One P] (prim : LevMarqPrimitives P I) (tol : ℚ) (k : Nat) :
    ∀ lambda : ℚ, (levMarqIterate prim tol k (PoseGraph.init P I) lambda).1 = PoseGraph.init P I := by
  induction k with
  | zero => intro lambda; rfl
  | succ k ih =>
    intro lambda
    simp only [levMarqIterate, applyIncrement_init]
    split
    · split
      · rfl
      · exact ih _
    · exact ih _

/-- The optimizer does move the other nodes: on the sample graph with the
shifting solver, three accepted steps move node 1 from 7 to 10 and leave the
root at 5. -/
theorem levMarqOptimize_sample :
    (levMarqOptimize shiftPrimitives sampleOptimizerOptions sampleGraph).1.nodes =
      [⟨0, 5, true⟩, ⟨1, 10, false⟩] := by
  norm_num [levMarqOptimize, levMarqIterate, applyIncrement, shiftPrimitives,
    sampleOptimizerOptions, sampleGraph]

end optimizer

section engine
variable {R P I : Type} [One P]

theorem noop_step_graph (optimize : PoseGraph P I → PoseGraph P I × Bool) (n : Nat)
    (hopt : (optimize (PoseGraph.init P I)).1 = PoseGraph.init P I)
    (st : EngineState (noopNodeDecider R P I) (noopEdgeDecider R P I)) (r : R)
    (hst : st.graph = PoseGraph.init P I) :
    (Engine.step _ _ optimize n st r).graph = PoseGraph.init P I := by
  simp only [Engine.step, noopNodeDecider]
  split
  · simp [hst, hopt]
  · simp [hst]

theorem noop_foldl_graph (optimize : PoseGraph P I → PoseGraph P I × Bool) (n : Nat)
    (hopt : (optimize (PoseGraph.init P I)).1 = PoseGraph.init P I) (stream : List R) :
    ∀ st : EngineState (noopNodeDecider R P I) (noopEdgeDecider R P I),
      st.graph = PoseGraph.init P I →
      (stream.foldl (Engine.step _ _ optimize n) st).graph = PoseGraph.init P I := by
  induction stream with
  | nil => intro st hst; exact hst
  | cons r rs ih =>
    intro st hst
    exact ih _ (noop_step_graph optimize n hopt st r hst)

/-- C3 (Scenario C): when the node decider name is CEmptyNRD and the edge
decider name is CEmptyERD (up to case), the only engine `main` declares is the
one with the no-op node decider and the no-op edge decider; and with these two
deciders, for every non-empty input stream (and every optimizer configuration)
the final graph is the initial one: exactly one node, the fixed root 0 at the
identity pose, and no edge. -/
theorem noop_deciders_final_graph (node_reg edge_reg ini rawlog gt : String) (vis : Bool)
    (hn : strCmpI node_reg "CEmptyNRD" = true) (he : strCmpI edge_reg "CEmptyERD" = true)
    (prim : LevMarqPrimitives P I) (opts : OptimizerOptions)
    (stream : List R) (_hne : stream ≠ []) :
    graphslam_engine.dispatchFixedIntervals node_reg edge_reg ini rawlog gt vis = none ∧
    graphslam_engine.dispatchEmptyOrICP node_reg edge_reg ini rawlog gt vis =
      some ⟨.CEmptyNRD, .CEmptyERD, .CLevMarqGSO, ini, rawlog, gt, vis⟩ ∧
    (Engine.run (noopNodeDecider R P I) (noopEdgeDecider R P I)
      (levMarqOptimize prim opts) opts.optimize_every_n_edges stream).nodes = [⟨0, 1, true⟩] ∧
    (Engine.run (noopNodeDecider R P I) (noopEdgeDecider R P I)
      (levMarqOptimize prim opts) opts.optimize_every_n_edges stream).root = 0 ∧
    (Engine.run (noopNodeDecider R P I) (noopEdgeDecider R P I)
      (levMarqOptimize prim opts) opts.optimize_every_n_edges stream).edges = [] := by
  have hopt : (levMarqOptimize prim opts (PoseGraph.init P I)).1 = PoseGraph.init P I :=
    levMarqIterate_init prim _ _ _
  have h : Engine.run (noopNodeDecider R P I) (noopEdgeDecider R P I)
      (levMarqOptimize prim opts) opts.optimize_every_n_edges stream = PoseGraph.init P I := by
    simp only [Engine.run]
    rw [noop_foldl_graph _ _ hopt stream _ rfl, hopt]
  have n1 : strCmpI node_reg "CFixedIntervalsNRD" = false := by
    rw [strCmpI_congr_left _ _ _ hn]; decide
  have e1 : strCmpI edge_reg "CICPCriteriaERD" = false := by
    rw [strCmpI_congr_left _ _ _ he]; decide
  have e2 : strCmpI edge_reg "CLoopCloserERD" = false := by
    rw [strCmpI_congr_left _ _ _ he]; decide
  refine ⟨?_, ?_, ?_, ?_, ?_⟩
  · simp [graphslam_engine.dispatchFixedIntervals, n1]
  · simp [graphslam_engine.dispatchEmptyOrICP, hn, he, e1, e2]
  · rw [h]; rfl
  · rw [h]; rfl
  · rw [h]; rfl

theorem noop_deciders_final_graph_witness :
    graphslam_engine.dispatchEmptyOrICP "cemptynrd" "CEmptyERD" "a.ini" "a.rawlog" "" true =
      some ⟨.CEmptyNRD, .CEmptyERD, .CLevMarqGSO, "a.ini", "a.rawlog", "", true⟩ ∧
    (Engine.run (noopNodeDecider (Record Unit Unit) Unit Unit) (noopEdgeDecider _ _ _)
      (levMarqOptimize (idlePrimitives Unit Unit) sampleOptimizerOptions) 1
      [straight 1, straight 2]).nodes = [⟨0, 1, true⟩] :=
  have h := noop_deciders_final_graph "cemptynrd" "CEmptyERD" "a.ini" "a.rawlog" "" true
    (by decide) (by decide) (idlePrimitives Unit Unit) sampleOptimizerOptions
    [straight 1, straight 2] (by simp)
  ⟨h.2.1, h.2.2.1⟩

end engine

/-- Feeding one more record after a sequence. -/
theorem feed_append {R P I : Type} (nd : NodeDecider R P I) (rs : List R) (r : R) :
    ∀ s : nd.State, nd.feed s (rs ++ [r]) =
      ((nd.consider (nd.feed s rs).1 r).1, (nd.feed s rs).2 ++ (nd.consider (nd.feed s rs).1 r).2.toList) := by
  induction rs with
  | nil => intro s; simp [NodeDecider.feed]
  | cons x xs ih =>
    intro s
    have h := ih (nd.consider s x).1
    show ((nd.feed (nd.consider s x).1 (xs ++ [r])).1,
      (nd.consider s x).2.toList ++ (nd.feed (nd.consider s x).1 (xs ++ [r])).2) = _
    rw [h]
    simp only [NodeDecider.feed, List.append_assoc]

section fixedInterval
variable {P I O : Type} [Mul P] [One P]

theorem fixedInterval_feed_quiet (opts : NodeDeciderOptions) (info : I)
    (rs : List (Record P O)) :
    ∀ s : FixedIntervalState P, staysWithin opts s.acc_distance s.acc_angle rs →
      ((fixedIntervalNodeDecider P I O opts info).feed s rs).2 = [] ∧
      ((fixedIntervalNodeDecider P I O opts info).feed s rs).1.acc_distance =
        s.acc_distance + totalDistance rs := by
  induction rs with
  | nil => intro s _; simp [NodeDecider.feed, totalDistance]
  | cons r rs ih =>
    intro s h
    obtain ⟨hd, ha, hrest⟩ := h
    have hno : ¬ (opts.linear_distance_threshold < s.acc_distance + r.motion.distance ∨
        opts.angular_distance_threshold < s.acc_angle + r.motion.angle) := by
      rintro (h | h)
      · exact absurd h (not_lt.mpr hd)
      · exact absurd h (not_lt.mpr ha)
    have hstep : (fixedIntervalNodeDecider P I O opts info).consider s r =
        ({ acc_distance := s.acc_distance + r.motion.distance
           acc_angle := s.acc_angle + r.motion.angle
           acc_motion := s.acc_motion * r.motion.delta
           estimate := s.estimate * r.motion.delta }, none) := by
      simp only [fixedIntervalNodeDecider, fixedIntervalConsider, if_neg hno]
    have := ih { acc_distance := s.acc_distance + r.motion.distance
                 acc_angle := s.acc_angle + r.motion.angle
                 acc_motion := s.acc_motion * r.motion.delta
                 estimate := s.estimate * r.motion.delta } hrest
    simp only [NodeDecider.feed, hstep, Option.toList, List.nil_append]
    refine ⟨this.1, ?_⟩
    rw [this.2]
    simp only [totalDistance, List.map_cons, List.sum_cons]
    ring

/-- C4 (amended, Scenario B in general): while neither the accumulated distance
exceeds the linear threshold nor the accumulated rotation the angular one, the
fixed-interval node decider registers no node and its distance accumulator is
the distance fed so far; the record that brings the accumulated distance above
the linear threshold `T` registers exactly one node, and the distance
accumulator is then the residual, the accumulated distance minus `T`. -/
theorem fixedInterval_registration (opts : NodeDeciderOptions) (info : I)
    (s : FixedIntervalState P) (rs : List (Record P O)) (r : Record P O)
    (hquiet : staysWithin opts s.acc_distance s.acc_angle rs) :
    let nd := fixedIntervalNodeDecider P I O opts info
    (nd.feed s rs).2.length = 0 ∧
    (nd.feed s rs).1.acc_distance = s.acc_distance + totalDistance rs ∧
    (opts.linear_distance_threshold < s.acc_distance + totalDistance rs + r.motion.distance →
      (nd.feed s (rs ++ [r])).2.length = 1 ∧
      (nd.feed s (rs ++ [r])).1.acc_distance =
        s.acc_distance + totalDistance rs + r.motion.distance - opts.linear_distance_threshold) := by
  intro nd
  have hq := fixedInterval_feed_quiet opts info rs s hquiet
  refine ⟨by rw [hq.1]; rfl, hq.2, ?_⟩
  intro hover
  have hover2 : opts.linear_distance_threshold <
      (nd.feed s rs).1.acc_distance + r.motion.distance := by rw [hq.2]; exact hover
  have hstep : nd.consider (nd.feed s rs).1 r =
      fixedIntervalConsider opts info (nd.feed s rs).1 r := rfl
  rw [feed_append, hq.1, hstep]
  simp only [fixedIntervalConsider, if_pos (Or.inl hover2), residual, if_pos hover2,
    Option.toList, List.nil_append, List.length_singleton, true_and]
  rw [hq.2]

theorem fixedInterval_registration_witness :
    ((fixedIntervalNodeDecider Unit Unit Unit scenarioB ()).feed ⟨0, 0, 1, 1⟩
        [straight (1/5), straight (1/5)]).2.length = 0 ∧
    ((fixedIntervalNodeDecider Unit Unit Unit scenarioB ()).feed ⟨0, 0, 1, 1⟩
        [straight (1/5), straight (1/5), straight (1/5)]).2.length = 1 ∧
    ((fixedIntervalNodeDecider Unit Unit Unit scenarioB ()).feed ⟨0, 0, 1, 1⟩
        [straight (1/5), straight (1/5), straight (1/5)]).1.acc_distance = 1 / 10 := by
  have h := fixedInterval_registration scenarioB () (⟨0, 0, 1, 1⟩ : FixedIntervalState Unit)
    [straight (1/5), straight (1/5)] (straight (1/5))
    (by norm_num [staysWithin, scenarioB, straight])
  have hover : scenarioB.linear_distance_threshold <
      (0 : ℚ) + totalDistance [straight (1/5), straight (1/5)]
        + (straight (1/5)).motion.distance := by
    norm_num [scenarioB, straight, totalDistance]
  refine ⟨h.1, (h.2.2 hover).1, ?_⟩
  have h3 := (h.2.2 hover).2
  simp only [List.cons_append, List.nil_append] at h3
  rw [h3]
  norm_num [scenarioB, straight, totalDistance]

/-- C4 (counterexample): with linear threshold 0.5 and angular threshold 1, a
first record that advances 0.1 m while turning 2 rad registers a node although
the accumulated distance, 0.1, does not exceed the linear threshold. -/
theorem fixedInterval_registers_on_rotation :
    (0 : ℚ) + (turning (1/10) 2).motion.distance ≤ scenarioB.linear_distance_threshold ∧
    ((fixedIntervalNodeDecider Unit Unit Unit scenarioB ()).feed ⟨0, 0, 1, 1⟩
      [turning (1/10) 2]).2.length = 1 := by
  constructor
  · norm_num [scenarioB, turning]
  · have hstep : (fixedIntervalNodeDecider Unit Unit Unit scenarioB ()).consider
        ⟨0, 0, 1, 1⟩ (turning (1/10) 2) =
        fixedIntervalConsider scenarioB () ⟨0, 0, 1, 1⟩ (turning (1/10) 2) := rfl
    simp only [NodeDecider.feed, hstep]
    norm_num [fixedIntervalConsider, scenarioB, turning]

end fixedInterval

end graphslam

namespace utils

namespace map_as_vector

variable {VALUE : Type}

theorem resize_length [Inhabited VALUE] (v : List (Nat × VALUE)) (n : Nat) :
    (resize v n).length = n := by
  simp only [resize, List.length_append, List.length_take, List.length_replicate]
  omega

theorem resize_get?_old [Inhabited VALUE] (v : List (Nat × VALUE)) (n j : Nat)
    (hj : j < v.length) (hn : j < n) : (resize v n).get? j = v.get? j := by
  simp only [resize, List.get?_eq_getElem?]
  rw [List.getElem?_append_left (by simp [List.length_take]; omega)]
  rw [List.getElem?_take_of_lt hn]

theorem resize_get?_new [Inhabited VALUE] (v : List (Nat × VALUE)) (n j : Nat)
    (hj : v.length ≤ j) (hn : j < n) : (resize v n).get? j = some (0, default) := by
  simp only [resize, List.get?_eq_getElem?]
  have htake : (v.take n).length = v.length := by simp [List.length_take]; omega
  rw [List.getElem?_append_right (by omega), htake]
  rw [List.getElem?_replicate]
  simp
  omega

/-- What `operator[]` does when `i+1` does not overflow and the element is new. -/
theorem operator_index_new [Inhabited VALUE] (m : map_as_vector VALUE) (i : Nat)
    (hi : i + 1 < SIZE_WIDTH) (hlen : m.m_vec.length ≤ i) :
    m.operator_index i = some (⟨(resize m.m_vec (i + 1)).set i (i, default)⟩, default) := by
  simp only [operator_index, if_pos hlen, Nat.mod_eq_of_lt hi]
  rw [resize_get?_new m.m_vec (i + 1) i hlen (by omega)]

/-- What `operator[]` does when the element exists already. -/
theorem operator_index_old [Inhabited VALUE] (m : map_as_vector VALUE) (i : Nat)
    (p : Nat × VALUE) (hp : m.m_vec.get? i = some p) :
    m.operator_index i = some (⟨m.m_vec.set i (i, p.2)⟩, p.2) := by
  have hlt : i < m.m_vec.length := by
    rw [List.get?_eq_getElem?] at hp
    exact (List.getElem?_eq_some_iff.1 hp).1
  simp only [operator_index, if_neg (not_le.mpr hlt), hp]

/-- C6: `count(i)` is 1 if `i < size()` and 0 otherwise; `find(i)` is `end()`
exactly when `count(i)` is 0, and otherwise it is `begin()+i` and refers to the
element at position `i`; and after a single write at key `N` into an empty
container `count(j)` is 1 for every `j <= N`. -/
theorem count_find_no_gaps [Inhabited VALUE] (m : map_as_vector VALUE) (i : Nat) :
    m.count i = (if i < m.size then 1 else 0) ∧
    (m.find i = m.end_ ↔ m.count i = 0) ∧
    (m.count i = 1 → m.find i = m.begin_ + i ∧
      ∃ e, m.deref (m.find i) = some e ∧ m.m_vec.get? i = some e) ∧
    (∀ (N : Nat) (m1 : map_as_vector VALUE) (v : VALUE),
      (mk_empty : map_as_vector VALUE).operator_index N = some (m1, v) →
      ∀ j, j ≤ N → m1.count j = 1) := by
  refine ⟨rfl, ?_, ?_, ?_⟩
  · by_cases h : i < m.m_vec.length
    · simp only [find, count, end_, if_pos h]
      constructor
      · intro h2; omega
      · intro h2; exact absurd h2 (by decide)
    · simp [find, count, end_, if_neg h]
  · intro hc
    have h : i < m.m_vec.length := by
      by_contra hn
      simp [count, if_neg hn] at hc
    refine ⟨by simp [find, begin_, if_pos h], m.m_vec.get ⟨i, h⟩, ?_, ?_⟩
    · simp [deref, find, if_pos h, List.get?_eq_getElem?, List.getElem?_eq_getElem h]
    · simp [List.get?_eq_getElem?, List.getElem?_eq_getElem h]
  · intro N m1 v hw j hj
    unfold operator_index at hw
    simp only [mk_empty, List.length_nil, Nat.zero_le, if_true] at hw
    cases hget : (resize ([] : List (Nat × VALUE)) ((N + 1) % SIZE_WIDTH)).get? N with
    | none => rw [hget] at hw; exact absurd hw (by simp)
    | some p =>
      rw [hget] at hw
      simp only [Option.some.injEq, Prod.mk.injEq] at hw
      have hlt : N < (resize ([] : List (Nat × VALUE)) ((N + 1) % SIZE_WIDTH)).length := by
        rw [List.get?_eq_getElem?] at hget
        exact (List.getElem?_eq_some_iff.1 hget).1
      have hlen : m1.m_vec.length = (resize ([] : List (Nat × VALUE)) ((N + 1) % SIZE_WIDTH)).length := by
        rw [← hw.1]; simp
      simp only [count]
      rw [if_pos (by omega)]

theorem count_find_no_gaps_witness :
    (mk_empty : map_as_vector Nat).operator_index 3 =
      some (⟨[(0, 0), (0, 0), (0, 0), (3, 0)]⟩, 0) ∧
    (⟨[(0, 0), (0, 0), (0, 0), (3, 0)]⟩ : map_as_vector Nat).count 2 = 1 :=
  have hw : (mk_empty : map_as_vector Nat).operator_index 3 =
      some (⟨[(0, 0), (0, 0), (0, 0), (3, 0)]⟩, 0) := by decide
  ⟨hw, (count_find_no_gaps (mk_empty : map_as_vector Nat) 0).2.2.2 3 _ _ hw 2 (by decide)⟩

/-- C7 (counterexample): at `i = SIZE_MAX` the sum `i+1` wraps to 0, the vector is
resized to 0 elements and `m_vec[i]` is then out of bounds: `m[i]` creates no
element. -/
theorem operator_index_size_max_undefined :
    (mk_empty : map_as_vector Nat).operator_index (2 ^ 64 - 1) = none ∧
    (⟨[(0, 5)]⟩ : map_as_vector Nat).operator_index (2 ^ 64 - 1) = none := by
  constructor <;> decide

/-- C7 (amended): for every container and every index `i` below `SIZE_MAX`,
`m[i]` is defined; afterwards `size()` is `max(old size, i+1)`, the pair at
position `i` carries key `i` and the returned value; when `i` was below the old
size the returned value is the one previously stored at `i`, otherwise it is a
value-initialised one; and the values at the other old positions are kept. -/
theorem operator_index_creates [Inhabited VALUE] (m : map_as_vector VALUE) (i : Nat)
    (hi : i + 1 < SIZE_WIDTH) :
    ∃ (m1 : map_as_vector VALUE) (v : VALUE),
      m.operator_index i = some (m1, v) ∧
      m1.size = max m.size (i + 1) ∧
      m1.deref i = some (i, v) ∧
      (∀ p, m.deref i = some p → v = p.2) ∧
      (m.size ≤ i → v = default) ∧
      (∀ j, j < m.size → j ≠ i → m1.deref j = m.deref j) := by
  by_cases hlen : m.m_vec.length ≤ i
  · refine ⟨_, _, operator_index_new m i hi hlen, ?_, ?_, ?_, ?_, ?_⟩
    · simp only [size, List.length_set, resize_length]; omega
    · simp only [deref, List.get?_eq_getElem?]
      rw [List.getElem?_set_self (by rw [resize_length]; omega)]
    · intro p hp
      simp only [deref, List.get?_eq_getElem?] at hp
      have := (List.getElem?_eq_some_iff.1 hp).1
      omega
    · intro _; rfl
    · intro j hj hji
      simp only [size] at hj
      simp only [deref, List.get?_eq_getElem?]
      rw [List.getElem?_set_ne (Ne.symm hji)]
      have := resize_get?_old m.m_vec (i + 1) j hj (by omega)
      simpa only [List.get?_eq_getElem?] using this
  · have hlt : i < m.m_vec.length := not_le.mp hlen
    have hp : m.m_vec.get? i = some (m.m_vec.get ⟨i, hlt⟩) := by
      simp [List.get?_eq_getElem?, List.getElem?_eq_getElem hlt]
    refine ⟨_, _, operator_index_old m i _ hp, ?_, ?_, ?_, ?_, ?_⟩
    · simp only [size, List.length_set]; omega
    · simp only [deref, List.get?_eq_getElem?]
      rw [List.getElem?_set_self hlt]
    · intro p hp2
      simp only [deref] at hp2
      rw [hp] at hp2
      rw [← Option.some.inj hp2]
    · intro h; simp only [size] at h; omega
    · intro j _ hji
      simp only [deref, List.get?_eq_getElem?]
      rw [List.getElem?_set_ne (Ne.symm hji)]

theorem operator_index_creates_witness :
    ∃ (m1 : map_as_vector Nat) (v : Nat),
      (⟨[(0, 8), (1, 9)]⟩ : map_as_vector Nat).operator_index 3 = some (m1, v) ∧
      m1.size = 4 ∧ m1.deref 3 = some (3, v) :=
  have h := operator_index_creates (⟨[(0, 8), (1, 9)]⟩ : map_as_vector Nat) 3 (by decide)
  h.elim fun m1 h1 => h1.elim fun v hv => ⟨m1, v, hv.1, hv.2.1, hv.2.2.1⟩

/-- What `insert` stores in general: the pair found under key `k` afterwards
has key `k` and the value its assignment operator makes of the whole pair. -/
theorem insert_stores_assigned [Inhabited VALUE] (assignPair : Nat × VALUE → VALUE)
    (m : map_as_vector VALUE) (k : Nat) (v : VALUE) (hk : k + 1 < SIZE_WIDTH) :
    ∃ m1, m.insert assignPair (k, v) = some m1 ∧
      m1.deref (m1.find k) = some (k, assignPair (k, v)) := by
  by_cases hlen : m.m_vec.length ≤ k
  · have h0 := operator_index_new m k hk hlen
    have hlt : k < (resize m.m_vec (k + 1)).length := by rw [resize_length]; omega
    refine ⟨⟨((resize m.m_vec (k + 1)).set k (k, default)).set k (k, assignPair (k, v))⟩,
      by simp only [insert, h0], ?_⟩
    simp only [deref, find, List.length_set, if_pos hlt, Nat.zero_add, List.get?_eq_getElem?]
    rw [List.getElem?_set_self (by simpa only [List.length_set] using hlt)]
  · have hlt : k < m.m_vec.length := not_le.mp hlen
    have hp : m.m_vec.get? k = some (m.m_vec.get ⟨k, hlt⟩) := by
      simp [List.get?_eq_getElem?, List.getElem?_eq_getElem hlt]
    have h0 := operator_index_old m k _ hp
    refine ⟨⟨(m.m_vec.set k (k, (m.m_vec.get ⟨k, hlt⟩).2)).set k (k, assignPair (k, v))⟩,
      by simp only [insert, h0], ?_⟩
    simp only [deref, find, List.length_set, if_pos hlt, Nat.zero_add, List.get?_eq_getElem?]
    rw [List.getElem?_set_self (by simpa only [List.length_set] using hlt)]

/-- C8 (evaluation at a failing input): with a `VALUE` type assignable from a
pair, `insert(pair(1, 7))` into an empty container leaves under key 1 not the
value 7 but the whole pair converted to a `VALUE`; the overload with a guess
point does the same. -/
theorem insert_stores_whole_pair :
    (mk_empty.insert AnyValue.assignPair (1, AnyValue.num 7)).map
        (fun m1 => m1.deref (m1.find 1)) =
      some (some (1, AnyValue.pair 1 (AnyValue.num 7))) ∧
    AnyValue.pair 1 (AnyValue.num 7) ≠ AnyValue.num 7 ∧
    (mk_empty.insert_guess AnyValue.assignPair 0 (1, AnyValue.num 7)).map
        (fun m1 => m1.m_vec) =
      (mk_empty.insert AnyValue.assignPair (1, AnyValue.num 7)).map (fun m1 => m1.m_vec) := by
  refine ⟨by decide, by decide, rfl⟩

end map_as_vector

end utils
namespace graphs

variable {σ TYPE_EDGES : Type}

theorem depth_succ_mod (d0 k : Nat) :
    ((d0 + k) % SIZE_WIDTH + 1) % SIZE_WIDTH = (d0 + (k + 1)) % SIZE_WIDTH := by
  simp only [SIZE_WIDTH]
  omega

/-- The loop of `visitDepthFirst` over the child list of a stored forest makes
the pre-order sequence of calls. -/
theorem visitDepthFirst_loop (t : CDirectedTree TYPE_EDGES) (vis : Visitor σ TYPE_EDGES)
    (d0 : Nat) (f : Forest TYPE_EDGES) :
    ∀ (fuel parent k : Nat) (s : σ), f.storedBelow t.edges_to_children → f.height ≤ fuel →
      f.edges.foldlM (fun s itEdge =>
          t.visitDepthFirst vis fuel itEdge.id
            (vis s parent itEdge ((d0 + k) % SIZE_WIDTH)) ((d0 + k) % SIZE_WIDTH)) s =
        some ((f.preorder parent k).foldl
          (fun s c => vis s c.1 c.2.1 ((d0 + c.2.2) % SIZE_WIDTH)) s) := by
  induction f with
  | nil => intro fuel parent k s _ _; rfl
  | cons e sub rest ihsub ihrest =>
    intro fuel parent k s hst hfuel
    obtain ⟨hheld, hsub, hrest⟩ := hst
    simp only [Forest.height] at hfuel
    obtain ⟨fuel1, rfl⟩ : ∃ n, fuel = n + 1 := ⟨fuel - 1, by omega⟩
    have hchild : t.visitDepthFirst vis (fuel1 + 1) e.id
        (vis s parent e ((d0 + k) % SIZE_WIDTH)) ((d0 + k) % SIZE_WIDTH) =
        some ((sub.preorder e.id (k + 1)).foldl
          (fun s c => vis s c.1 c.2.1 ((d0 + c.2.2) % SIZE_WIDTH))
          (vis s parent e ((d0 + k) % SIZE_WIDTH))) := by
      simp only [CDirectedTree.visitDepthFirst, depth_succ_mod]
      rcases hheld with h | ⟨h1, h2⟩
      · rw [h]
        exact ihsub fuel1 e.id (k + 1) _ hsub (by omega)
      · rw [h2, h1]; rfl
    simp only [Forest.edges, List.foldlM_cons, hchild, Forest.preorder, List.foldl_cons,
      List.foldl_append]
    exact ihrest (fuel1 + 1) parent k _ hrest (by omega)

/-- For any visitor: `visitDepthFirst` from a start node below which a finite
tree is stored returns, given enough recursion depth, and has made exactly the
pre-order sequence of calls. -/
theorem visitDepthFirst_fold (t : CDirectedTree TYPE_EDGES) (vis : Visitor σ TYPE_EDGES)
    (r d0 : Nat) (f : Forest TYPE_EDGES) (fuel : Nat) (s : σ)
    (hstored : f.storedAt t.edges_to_children r) (hfuel : f.height < fuel) :
    t.visitDepthFirst vis fuel r s d0 =
      some ((f.preorder r 1).foldl (fun s c => vis s c.1 c.2.1 ((d0 + c.2.2) % SIZE_WIDTH)) s) := by
  obtain ⟨fuel1, rfl⟩ : ∃ n, fuel = n + 1 := ⟨fuel - 1, by omega⟩
  simp only [CDirectedTree.visitDepthFirst]
  rcases hstored.1 with h | ⟨h1, h2⟩
  · rw [h]
    exact visitDepthFirst_loop t vis d0 f fuel1 r 1 s hstored.2 (by omega)
  · rw [h2, h1]; rfl

theorem recordCalls_foldl (g : VisitCall TYPE_EDGES → Nat) (l : List (VisitCall TYPE_EDGES)) :
    ∀ acc : List (VisitCall TYPE_EDGES),
      l.foldl (fun s c => recordCalls TYPE_EDGES s c.1 c.2.1 (g c)) acc =
        acc ++ l.map (fun c => (c.1, c.2.1, g c)) := by
  induction l with
  | nil => intro acc; simp
  | cons c cs ih =>
    intro acc
    simp only [List.foldl_cons, List.map_cons, ih]
    simp [recordCalls]

theorem preorder_length (f : Forest TYPE_EDGES) :
    ∀ parent k, (f.preorder parent k).length = f.numEdges := by
  induction f with
  | nil => intro _ _; rfl
  | cons e sub rest ihsub ihrest =>
    intro parent k
    simp only [Forest.preorder, Forest.numEdges, List.length_cons, List.length_append,
      ihsub, ihrest]
    omega

theorem preorder_depth_lt (f : Forest TYPE_EDGES) :
    ∀ parent k, ∀ c ∈ f.preorder parent k, k ≤ c.2.2 ∧ c.2.2 < k + f.height := by
  induction f with
  | nil => intro _ _ c hc; simp [Forest.preorder] at hc
  | cons e sub rest ihsub ihrest =>
    intro parent k c hc
    simp only [Forest.preorder, List.mem_cons, List.mem_append] at hc
    simp only [Forest.height]
    rcases hc with rfl | hc | hc
    · simp only; omega
    · have := ihsub _ _ c hc; omega
    · have := ihrest _ _ c hc; omega

/-- C9: for every finite tree stored in `edges_to_children` below a start node
`r`, `visitDepthFirst(r, visitor, d0)` returns (given enough recursion depth)
having called `OnVisitNode` exactly once per edge of the tree, in depth-first
pre-order following child-list order, with `depth_level` equal to `d0` plus
the number of edges on the path from `r` to the edge's child (computed in
`size_t`, hence exactly that sum unless it exceeds `SIZE_MAX`); and a start
node with no entry in the map produces no call. -/
theorem visitDepthFirst_preorder (t : CDirectedTree TYPE_EDGES) (r d0 : Nat)
    (f : Forest TYPE_EDGES) (fuel : Nat)
    (hstored : f.storedAt t.edges_to_children r) (hfuel : f.height < fuel) :
    t.visitDepthFirst (recordCalls TYPE_EDGES) fuel r [] d0 =
      some ((f.preorder r 1).map (fun c => (c.1, c.2.1, (d0 + c.2.2) % SIZE_WIDTH))) ∧
    (d0 + f.height < SIZE_WIDTH →
      t.visitDepthFirst (recordCalls TYPE_EDGES) fuel r [] d0 =
        some ((f.preorder r 1).map (fun c => (c.1, c.2.1, d0 + c.2.2)))) ∧
    (f.preorder r 1).length = f.numEdges ∧
    (∀ r1 s, mapFind t.edges_to_children r1 = none →
      t.visitDepthFirst (recordCalls TYPE_EDGES) fuel r1 s d0 = some s) := by
  have hmain : t.visitDepthFirst (recordCalls TYPE_EDGES) fuel r [] d0 =
      some ((f.preorder r 1).map (fun c => (c.1, c.2.1, (d0 + c.2.2) % SIZE_WIDTH))) := by
    rw [visitDepthFirst_fold t _ r d0 f fuel [] hstored hfuel,
      recordCalls_foldl (fun c => (d0 + c.2.2) % SIZE_WIDTH)]
    rfl
  refine ⟨hmain, ?_, preorder_length f r 1, ?_⟩
  · intro hsmall
    rw [hmain]
    congr 1
    apply List.map_congr_left
    intro c hc
    have := (preorder_depth_lt f r 1 c hc).2
    rw [Nat.mod_eq_of_lt (by omega)]
  · intro r1 s hnone
    obtain ⟨fuel1, rfl⟩ : ∃ n, fuel = n + 1 := ⟨fuel - 1, by omega⟩
    simp only [CDirectedTree.visitDepthFirst, hnone]

theorem visitDepthFirst_preorder_witness :
    docTree.visitDepthFirst (recordCalls Unit) 3 0 [] 0 =
      some [(0, edgeTo 1, 1), (0, edgeTo 2, 1), (2, edgeTo 4, 2), (2, edgeTo 5, 2),
        (0, edgeTo 3, 1)] :=
  (visitDepthFirst_preorder docTree 0 0 docForest 3
    (by simp [Forest.storedAt, Forest.storedBelow, Forest.heldAt, docForest, docTree, mapFind,
      Forest.edges, edgeTo])
    (by decide)).1

/-- C10 (evaluation at a failing input): on the tree 0 -> {1,2}, 1 -> {3},
3 -> {4}, 2 -> {5}, `visitBreadthFirst(0, visitor)` reports the edge 3 -> 4, whose
child is at depth 3, before the edge 2 -> 5, whose child is at depth 2. -/
theorem visitBreadthFirst_not_level_order :
    deepTree.visitBreadthFirst (recordCalls Unit) 3 0 [] 0 =
      some [(0, edgeTo 1, 1), (0, edgeTo 2, 1), (1, edgeTo 3, 2), (3, edgeTo 4, 3),
        (2, edgeTo 5, 2)] ∧
    ¬ levelOrdered [(0, edgeTo 1, 1), (0, edgeTo 2, 1), (1, edgeTo 3, 2), (3, edgeTo 4, 3),
        (2, edgeTo 5, 2)] := by
  constructor
  · decide
  · unfold levelOrdered
    decide

end graphs

namespace graphs

variable {TYPE_EDGES : Type}

/-- What `CMyVisitor` has written after a sequence of calls. -/
theorem CMyVisitor_foldl (g : VisitCall TYPE_EDGES → Nat) (l : List (VisitCall TYPE_EDGES)) :
    ∀ s : String,
      l.foldl (fun s c => CMyVisitor TYPE_EDGES s c.1 c.2.1 (g c)) s =
        s ++ concatLines (l.map (fun c => edgeLine c.2.1 ((g c * 5) % SIZE_WIDTH))) := by
  induction l with
  | nil => intro s; simp [concatLines]
  | cons c cs ih =>
    intro s
    simp only [List.foldl_cons, List.map_cons, concatLines, ih]
    simp only [CMyVisitor, edgeLine, String.append_assoc]

/-- C11: for every finite tree stored below the root, `getAsTextDescription`
returns (given enough recursion depth) the root id on the first line followed
by exactly one line per edge of the tree, in depth-first pre-order; the line of
an edge whose child lies `k` edges below the root consists of `5*k` blanks (the
product being computed in `size_t`, hence exactly `5*k` unless that exceeds
`SIZE_MAX`), then `<-` when the reverse flag is set and `->` otherwise, then the
child id (ids are right-justified to width 3). -/
theorem getAsTextDescription_lines (t : CDirectedTree TYPE_EDGES) (f : Forest TYPE_EDGES)
    (fuel : Nat) (hstored : f.storedAt t.edges_to_children t.root) (hfuel : f.height < fuel) :
    t.getAsTextDescription fuel =
      some (setw3 t.root ++ "\n" ++ concatLines ((f.preorder t.root 1).map
        (fun c => edgeLine c.2.1 ((c.2.2 % SIZE_WIDTH * 5) % SIZE_WIDTH)))) ∧
    (5 * f.height < SIZE_WIDTH →
      t.getAsTextDescription fuel =
        some (setw3 t.root ++ "\n" ++ concatLines ((f.preorder t.root 1).map
          (fun c => edgeLine c.2.1 (5 * c.2.2))))) ∧
    ((f.preorder t.root 1).map (fun c => edgeLine c.2.1 (5 * c.2.2))).length = f.numEdges ∧
    (∀ (e : TEdgeInfo TYPE_EDGES) (indent : Nat),
      edgeLine e indent =
        blanks indent ++ (if e.reverse then "<-" else "->") ++ setw3 e.id ++ "\n") := by
  have hmain : t.getAsTextDescription fuel =
      some (setw3 t.root ++ "\n" ++ concatLines ((f.preorder t.root 1).map
        (fun c => edgeLine c.2.1 ((c.2.2 % SIZE_WIDTH * 5) % SIZE_WIDTH)))) := by
    simp only [CDirectedTree.getAsTextDescription]
    rw [visitDepthFirst_fold t _ t.root 0 f fuel _ hstored hfuel,
      CMyVisitor_foldl (fun c => (0 + c.2.2) % SIZE_WIDTH)]
    simp only [Nat.zero_add, String.empty_append]
  refine ⟨hmain, ?_, ?_, fun _ _ => rfl⟩
  · intro hsmall
    rw [hmain]
    congr 3
    apply List.map_congr_left
    intro c hc
    have hk := preorder_depth_lt f t.root 1 c hc
    have h1 : c.2.2 % SIZE_WIDTH = c.2.2 := Nat.mod_eq_of_lt (by omega)
    have h2 : c.2.2 * 5 % SIZE_WIDTH = c.2.2 * 5 := Nat.mod_eq_of_lt (by omega)
    rw [h1, h2, Nat.mul_comm]
  · rw [List.length_map, preorder_length]

theorem getAsTextDescription_lines_witness :
    docTree.getAsTextDescription 3 =
      some "  0\n     ->  1\n     ->  2\n          ->  4\n          ->  5\n     ->  3\n" :=
  ((getAsTextDescription_lines docTree docForest 3
    (by simp [Forest.storedAt, Forest.storedBelow, Forest.heldAt, docForest, docTree, mapFind,
      Forest.edges, edgeTo])
    (by decide)).2.1 (by decide)).trans (by decide)

end graphs

namespace opengl

namespace COpenGLStandardObject

theorem std_find_le (vec : List Nat) (value : Nat) : std_find vec value ≤ vec.length := by
  induction vec with
  | nil => simp [std_find]
  | cons x rest ih =>
    simp only [std_find]
    split
    · simp
    · simp only [List.length_cons]; omega

/-- The call `std::find` returns `end()` exactly when no element matches. -/
theorem std_find_eq_length (vec : List Nat) (value : Nat) :
    std_find vec value = vec.length ↔ value ∉ vec := by
  induction vec with
  | nil => simp [std_find]
  | cons x rest ih =>
    simp only [std_find, List.length_cons, List.mem_cons, not_or]
    by_cases h : x = value
    · simp [h]
    · have h2 : ¬ value = x := fun e => h e.symm
      simp only [if_neg h, Nat.add_right_cancel_iff, ih, h2, not_false_eq_true, true_and]

/-- C12: `Create(t, v, cs, en)` throws exactly when `cs != 0` and
`v.size() % cs != 0`, that is, for a non-zero chunk size, when the number of
vertices is not a multiple of it; with `cs = 0` it never throws; and when it
does not throw the object holds type `t`, vertices `v`, chunk size `cs`,
enabled flags `en` and the normal (0,0,0). -/
theorem Create_throws_iff (t : Nat) (v : List TPoint3D) (cs : Nat) (en : List Nat) :
    ((∃ msg, Create t v cs en = Except.error msg) ↔ (cs ≠ 0 ∧ v.length % cs ≠ 0)) ∧
    (cs ≠ 0 → (v.length % cs ≠ 0 ↔ ¬ cs ∣ v.length)) ∧
    (cs = 0 → ∃ o, Create t v cs en = Except.ok o) ∧
    (¬ (cs ≠ 0 ∧ v.length % cs ≠ 0) →
      Create t v cs en =
        Except.ok { type := t, vertices := v, chunkSize := cs, enabled := en,
                    normal := (0, 0, 0) }) := by
  by_cases h : cs ≠ 0 ∧ v.length % cs ≠ 0
  · have hc : (cs != 0 && v.length % cs != 0) = true := by simp [h.1, h.2]
    refine ⟨⟨fun _ => h, fun _ => ⟨"Vertices vector does not match chunk size",
      by simp only [Create, hc, if_true]⟩⟩, ?_, ?_, ?_⟩
    · intro _; rw [Nat.dvd_iff_mod_eq_zero]
    · intro h0; exact absurd h0 h.1
    · intro hn; exact absurd h hn
  · have hc : (cs != 0 && v.length % cs != 0) = false := by
      by_cases h0 : cs = 0
      · simp [h0]
      · have : v.length % cs = 0 := by
          by_contra h1; exact h ⟨h0, h1⟩
        simp [this]
    have hok : Create t v cs en = Except.ok (ctor t v cs en) := by
      simp only [Create, hc, Bool.false_eq_true, if_false]
    refine ⟨⟨?_, fun h2 => absurd h2 h⟩, ?_, ?_, ?_⟩
    · rintro ⟨msg, hmsg⟩
      rw [hok] at hmsg
      exact absurd hmsg (by simp)
    · intro _; rw [Nat.dvd_iff_mod_eq_zero]
    · intro _; exact ⟨_, hok⟩
    · intro _; exact hok

theorem Create_throws_iff_witness :
    (∃ msg, Create GL_TRIANGLES triangle 2 [GL_LIGHTING] = Except.error msg) ∧
    Create GL_TRIANGLES triangle 3 [GL_LIGHTING] =
      Except.ok { type := GL_TRIANGLES, vertices := triangle, chunkSize := 3,
                  enabled := [GL_LIGHTING], normal := (0, 0, 0) } :=
  ⟨(Create_throws_iff GL_TRIANGLES triangle 2 [GL_LIGHTING]).1.2 (by decide),
   (Create_throws_iff GL_TRIANGLES triangle 3 [GL_LIGHTING]).2.2.2 (by decide)⟩

theorem std_remove_loop_length (value : Nat) (n : Nat) :
    ∀ (vec : List Nat) (result first : Nat),
      (std_remove_loop value n vec result first).1.length = vec.length := by
  induction n with
  | zero => intro vec result first; rfl
  | succ n ih =>
    intro vec result first
    simp only [std_remove_loop]
    split
    · rfl
    · split
      · exact ih _ _ _
      · rw [ih, List.length_set]

/-- The call `std::remove` never changes the size of the vector. -/
theorem std_remove_length (vec : List Nat) (value : Nat) :
    (std_remove vec value).1.length = vec.length := by
  simp only [std_remove]
  split
  · rfl
  · exact std_remove_loop_length _ _ _ _ _

/-- C13 (evaluation at failing inputs): `disable` never changes the number of
enabled flags; after `enable(GL_LIGHTING)` the call `disable(GL_LIGHTING)`
leaves the flag list as it was, so `isEnabled` still returns true; the same
happens when the flag is the last of two; and disabling the first of two flags
overwrites it with a copy of the second. -/
theorem disable_leaves_flag_enabled :
    (∀ (o : COpenGLStandardObject) (f : Nat), (o.disable f).enabled.length = o.enabled.length) ∧
    (triangleObject.enable GL_LIGHTING).enabled = [GL_LIGHTING] ∧
    ((triangleObject.enable GL_LIGHTING).disable GL_LIGHTING).enabled = [GL_LIGHTING] ∧
    ((triangleObject.enable GL_LIGHTING).disable GL_LIGHTING).isEnabled GL_LIGHTING = true ∧
    (((triangleObject.enable GL_BLEND).enable GL_LIGHTING).disable GL_LIGHTING).isEnabled
      GL_LIGHTING = true ∧
    (((triangleObject.enable GL_BLEND).enable GL_LIGHTING).disable GL_BLEND).enabled =
      [GL_LIGHTING, GL_LIGHTING] := by
  refine ⟨fun o f => std_remove_length o.enabled f, by decide, by decide, by decide, by decide,
    by decide⟩

/-- C14: after `enable(f)` the query `isEnabled(f)` returns true; if `f` was in
the list the list is unchanged, otherwise `f` is appended once; the number of
occurrences of any flag grows only for `f` and only when it was absent, so a
list without duplicates stays so; nothing else in the object changes; and
`enable(f)` twice is `enable(f)` once. -/
theorem enable_idempotent (o : COpenGLStandardObject) (f : Nat) :
    (o.enable f).isEnabled f = true ∧
    (f ∈ o.enabled → (o.enable f).enabled = o.enabled) ∧
    (f ∉ o.enabled → (o.enable f).enabled = o.enabled ++ [f]) ∧
    (∀ g, (o.enable f).enabled.count g =
      o.enabled.count g + (if g = f ∧ f ∉ o.enabled then 1 else 0)) ∧
    (o.enabled.Nodup → (o.enable f).enabled.Nodup) ∧
    (o.enable f) = { o with enabled := (o.enable f).enabled } ∧
    (o.enable f).enable f = o.enable f := by
  by_cases h : f ∈ o.enabled
  · have hfind : ¬ std_find o.enabled f = o.enabled.length := by
      rw [std_find_eq_length]; exact fun hn => hn h
    have he : o.enable f = o := by simp only [enable, if_neg hfind]
    refine ⟨?_, fun _ => by rw [he], fun hn => absurd h hn, ?_, fun hd => by rw [he]; exact hd,
      by rw [he], by rw [he, he]⟩
    · simp only [he, isEnabled, bne_iff_ne, ne_eq]; exact hfind
    · intro g; simp [he, h]
  · have hfind : std_find o.enabled f = o.enabled.length := (std_find_eq_length _ _).2 h
    have he : o.enable f = { o with enabled := o.enabled ++ [f] } := by
      simp only [enable, if_pos hfind]
    have hmem : f ∈ (o.enabled ++ [f]) := by simp
    have hfind2 : ¬ std_find (o.enabled ++ [f]) f = (o.enabled ++ [f]).length := by
      rw [std_find_eq_length]; exact fun hn => hn hmem
    refine ⟨?_, fun hm => absurd hm h, fun _ => by rw [he], ?_, ?_, by rw [he], ?_⟩
    · simp only [he, isEnabled, bne_iff_ne, ne_eq]; exact hfind2
    · intro g
      rw [he]
      by_cases hg : g = f
      · subst hg; simp [h]
      · have hg2 : ¬ f = g := fun e => hg e.symm
        simp [hg, hg2, List.count_cons]
    · intro hd
      rw [he]
      exact List.Nodup.append hd (List.nodup_singleton f) (by simpa using h)
    · rw [he]
      simp only [enable, if_neg hfind2]

theorem enable_idempotent_witness :
    (triangleObject.enable GL_LIGHTING).enabled = [GL_LIGHTING] ∧
    ((triangleObject.enable GL_LIGHTING).enable GL_LIGHTING).enabled = [GL_LIGHTING] :=
  have h1 := (enable_idempotent triangleObject GL_LIGHTING).2.2.1 (by decide)
  have h2 := (enable_idempotent (triangleObject.enable GL_LIGHTING) GL_LIGHTING).2.1
    (by rw [h1]; decide)
  ⟨h1, h2.trans h1⟩

end COpenGLStandardObject

end opengl

end mrpt
